import Mathlib

/-! Camera calibration driver (`re/Calib`): a shallow embedding

The development follows `calibration.cpp` and `readCalibrationMatrix.cpp`.

Modelling conventions
* Scalars (`float`, `double`) are elements of an arbitrary type `α` carrying the
  arithmetic the code uses; conversions between `float` and `double` are the
  identity.  The square root, the projection, the solver and the range check
  of OpenCV are external and collected in `External`.
* `int` values that only count or index are `Nat` or `Int`; a bit mask is the
  `Nat` holding its bit pattern.
* `std::vector` is `List`; `push_back` is `· ++ [x]`; `resize(0)` is `take 0`.
* A failed OpenCV assertion and an access outside a vector are results of type
  `Except Fault`.
-/

namespace Calib

/-! ## Data model -/

/-- The type `cv::Size`: a width and a height, both `int`. -/
structure Size where
  width : Int
  height : Int
  deriving DecidableEq, Repr

/-- The type `cv::Point3f`. -/
structure Point3f (α : Type) where
  x : α
  y : α
  z : α
  deriving DecidableEq, Repr

/-- The type `cv::Point2f`. -/
structure Point2f (α : Type) where
  x : α
  y : α
  deriving DecidableEq, Repr

/-- One accepted observation: the corner points found in one frame. -/
abbrev View (α : Type) := List (Point2f α)

/-! ## Board geometry (`calcChessboardCorners`, lines 147-161) -/

/-- The function `calcChessboardCorners`: the vector is emptied, then the rows
`i` and in each row the columns `j` push `(j * squareSize, i * squareSize, 0)`. -/
def calcChessboardCorners {α : Type} [NatCast α] [Mul α] [Zero α]
    (boardSize : Size) (squareSize : α) (corners : List (Point3f α)) :
    List (Point3f α) :=
  (List.range boardSize.height.toNat).foldl
    (fun (cs : List (Point3f α)) (i : Nat) =>
      (List.range boardSize.width.toNat).foldl
        (fun (cs : List (Point3f α)) (j : Nat) =>
          cs ++ [⟨(j : α) * squareSize, (i : α) * squareSize, 0⟩])
        cs)
    (corners.take 0)

/-! ## Matrices, faults and the external collaborators -/

/-- The type `cv::Mat` as far as the program looks at it: the number of rows
and columns, the size of one element in bytes, and the entries row by row. -/
structure Mat (α : Type) where
  rows : Nat
  cols : Nat
  elemSize : Nat
  data : List α
  deriving DecidableEq, Repr

/-- The default constructed matrix `Mat()`. -/
def Mat.empty {α : Type} : Mat α := ⟨0, 0, 0, []⟩

/-- The matrix `Mat::eye(3, 3, CV_64F)`. -/
def Mat.eye3 {α : Type} [Zero α] [One α] : Mat α :=
  ⟨3, 3, 8, [1, 0, 0, 0, 1, 0, 0, 0, 1]⟩

/-- The matrix `Mat::zeros(8, 1, CV_64F)`. -/
def Mat.zeros8 {α : Type} [Zero α] : Mat α := ⟨8, 1, 8, List.replicate 8 0⟩

/-- The assignment `m.at<double>(r, c) = v`. -/
def Mat.setAt {α : Type} (m : Mat α) (r c : Nat) (v : α) : Mat α :=
  { m with data := m.data.set (r * m.cols + c) v }

/-- An abnormal end of a computation: an OpenCV assertion that throws, or a
vector read outside its bounds (undefined in the source). -/
inductive Fault where
  | assertion
  | outOfRange
  deriving DecidableEq, Repr

/-- What `calibrateCamera` hands back. -/
structure SolverOut (α : Type) where
  cameraMatrix : Mat α
  distCoeffs : Mat α
  rvecs : List (Mat α)
  tvecs : List (Mat α)
  rms : α

/-- The OpenCV routines the program calls and does not define. -/
structure External (α : Type) where
  sqrt : α → α
  projectPoints : List (Point3f α) → Mat α → Mat α → Mat α → Mat α → List (Point2f α)
  calibrateCamera : List (List (Point3f α)) → List (View α) → Size → Mat α → Mat α →
    Nat → SolverOut α
  checkRange : Mat α → Bool

/-- The read `v[i]` of a vector. -/
def vecAt {β : Type} (v : List β) (i : Nat) : Except Fault β :=
  match v[i]? with
  | some x => .ok x
  | none => .error .outOfRange

/-- The call `v.resize(n, x)`. -/
def resizeWith {β : Type} (v : List β) (n : Nat) (x : β) : List β :=
  v.take n ++ List.replicate (n - v.length) x

/-! ## Reprojection scoring (`computeReprojectionErrors`, lines 109-139) -/

/-- The call `norm(Mat(a), Mat(b), CV_L2)` on two point vectors: the square
root of the sum of the squared coordinate differences; OpenCV asserts that
both have the same size. -/
def normL2 {α : Type} [Field α] (ext : External α) (a b : List (Point2f α)) :
    Except Fault α :=
  if a.length = b.length then
    .ok (ext.sqrt ((List.zipWith
      (fun p q => (p.x - q.x) * (p.x - q.x) + (p.y - q.y) * (p.y - q.y)) a b).sum))
  else .error .assertion

/-- The variables the loop of `computeReprojectionErrors` updates. -/
structure ReprojAcc (α : Type) where
  perViewErrors : List α
  totalErr : α
  totalPoints : Nat

/-- The call `projectPoints(Mat(objectPoints[i]), rvecs[i], tvecs[i], ..)` of
lines 125-130.  OpenCV throws when the point matrix is empty; for a view with
points the result is the one of `ext.projectPoints`.  The pose matrices are
not inspected here: what the routine does with a rotation or a translation is
left to `ext.projectPoints`, and a statement that depends on the poses being
well formed says so in its hypotheses. -/
def projectPoints {α : Type} (ext : External α) (obj : List (Point3f α))
    (rvec tvec cameraMatrix distCoeffs : Mat α) : Except Fault (List (Point2f α)) :=
  if obj.isEmpty then .error .assertion
  else .ok (ext.projectPoints obj rvec tvec cameraMatrix distCoeffs)

/-- One pass of the loop body (lines 125-135) for the view `i`. -/
def reprojBody {α : Type} [Field α] (ext : External α)
    (objectPoints : List (List (Point3f α))) (imagePoints : List (View α))
    (rvecs tvecs : List (Mat α)) (cameraMatrix distCoeffs : Mat α)
    (acc : ReprojAcc α) (i : Nat) : Except Fault (ReprojAcc α) := do
  let obj ← vecAt objectPoints i
  let rvec ← vecAt rvecs i
  let tvec ← vecAt tvecs i
  let imagePoints2 ← projectPoints ext obj rvec tvec cameraMatrix distCoeffs
  let img ← vecAt imagePoints i
  let err ← normL2 ext img imagePoints2
  let n := obj.length
  pure ⟨acc.perViewErrors.set i (ext.sqrt (err * err / (n : α))),
        acc.totalErr + err * err, acc.totalPoints + n⟩

/-- The function `computeReprojectionErrors`: the average error it returns and
the per-view errors it leaves in `perViewErrors`. -/
def computeReprojectionErrors {α : Type} [Field α] (ext : External α)
    (objectPoints : List (List (Point3f α))) (imagePoints : List (View α))
    (rvecs tvecs : List (Mat α)) (cameraMatrix distCoeffs : Mat α)
    (perViewErrors : List α) : Except Fault (α × List α) := do
  let acc ← (List.range objectPoints.length).foldlM
    (reprojBody ext objectPoints imagePoints rvecs tvecs cameraMatrix distCoeffs)
    ⟨resizeWith perViewErrors objectPoints.length 0, 0, 0⟩
  pure (ext.sqrt (acc.totalErr / (acc.totalPoints : α)), acc.perViewErrors)

/-! ## The calibration runner (`runCalibration`, lines 231-279) -/

def CV_CALIB_USE_INTRINSIC_GUESS : Nat := 1
def CV_CALIB_FIX_ASPECT_RATIO : Nat := 2
def CV_CALIB_FIX_PRINCIPAL_POINT : Nat := 4
def CV_CALIB_ZERO_TANGENT_DIST : Nat := 8
def CV_CALIB_FIX_K4 : Nat := 2048
def CV_CALIB_FIX_K5 : Nat := 4096
def CV_CALIB_FIX_K6 : Nat := 8192

/-- The flag word handed to `calibrateCamera` (line 264). -/
def solverFlags (flags : Nat) : Nat :=
  flags ||| CV_CALIB_FIX_K4 ||| CV_CALIB_FIX_K5

/-- What `runCalibration` returns and leaves in its reference parameters. -/
structure CalibrationResult (α : Type) where
  ok : Bool
  cameraMatrix : Mat α
  distCoeffs : Mat α
  rvecs : List (Mat α)
  tvecs : List (Mat α)
  reprojErrs : List α
  totalAvgErr : α

/-- The function `runCalibration`. -/
def runCalibration {α : Type} [Field α] (ext : External α)
    (imagePoints : List (View α)) (imageSize boardSize : Size)
    (squareSize aspectRatio : α) (flags : Nat) (reprojErrs : List α) :
    Except Fault (CalibrationResult α) := do
  let cameraMatrix0 : Mat α :=
    if flags &&& CV_CALIB_FIX_ASPECT_RATIO ≠ 0 then Mat.eye3.setAt 0 0 aspectRatio
    else Mat.eye3
  let distCoeffs0 : Mat α := Mat.zeros8
  let corners := calcChessboardCorners boardSize squareSize []
  let objectPoints := resizeWith [corners] imagePoints.length corners
  let out := ext.calibrateCamera objectPoints imagePoints imageSize cameraMatrix0
    distCoeffs0 (solverFlags flags)
  let ok := ext.checkRange out.cameraMatrix && ext.checkRange out.distCoeffs
  let (totalAvgErr, errs) ← computeReprojectionErrors ext objectPoints imagePoints
    out.rvecs out.tvecs out.cameraMatrix out.distCoeffs reprojErrs
  pure ⟨ok, out.cameraMatrix, out.distCoeffs, out.rvecs, out.tvecs, errs, totalAvgErr⟩

/-! ## The result document (`saveCameraParams`, lines 297-385) -/

/-- A value stored under a key of a `FileStorage` document. -/
inductive Value (α : Type) where
  | str (s : String)
  | int (n : Int)
  | real (x : α)
  | mat (m : Mat α)
  deriving DecidableEq, Repr

/-- One item written to a `FileStorage`: a named field or a comment. -/
inductive Entry (α : Type) where
  | field (name : String) (value : Value α)
  | comment (text : String)
  deriving DecidableEq, Repr

/-- The content of a `FileStorage` document, in writing order. -/
abbrev Document (α : Type) := List (Entry α)

/-- The read `fs[name]`: the first field of that name, if any. -/
def Document.lookup {α : Type} (name : String) : Document α → Option (Value α)
  | [] => none
  | Entry.field n v :: rest => if n = name then some v else Document.lookup name rest
  | Entry.comment _ :: rest => Document.lookup name rest

/-- The text of the comment written before the `flags` field (lines 336-341). -/
def flagsComment (flags : Nat) : String :=
  "flags: "
    ++ (if flags &&& CV_CALIB_USE_INTRINSIC_GUESS ≠ 0 then "+use_intrinsic_guess" else "")
    ++ (if flags &&& CV_CALIB_FIX_ASPECT_RATIO ≠ 0 then "+fix_aspectRatio" else "")
    ++ (if flags &&& CV_CALIB_FIX_PRINCIPAL_POINT ≠ 0 then "+fix_principal_point" else "")
    ++ (if flags &&& CV_CALIB_ZERO_TANGENT_DIST ≠ 0 then "+zero_tangent_dist" else "")

/-- The rows of `bigmat` (lines 358-365): for each view the rotation vector
followed by the translation vector. -/
def extrinsicRows {α : Type} (rvecs tvecs : List (Mat α)) : Except Fault (List α) :=
  (List.range rvecs.length).foldlM
    (fun (acc : List α) (i : Nat) => do
      let r ← vecAt rvecs i
      let t ← vecAt tvecs i
      pure (acc ++ r.data ++ t.data))
    []

/-- The function `saveCameraParams`: the items it writes, in order, to a
storage that could be opened.  The time stamp text is an input. -/
def saveCameraParams {α : Type} (calibrationTime : String)
    (imageSize boardSize : Size) (squareSize aspectRatio : α) (flags : Nat)
    (cameraMatrix distCoeffs : Mat α) (rvecs tvecs : List (Mat α))
    (reprojErrs : List α) (imagePoints : List (View α)) (totalAvgErr : α) :
    Except Fault (Document α) := do
  let d1 : Document α := [Entry.field "calibration_time" (Value.str calibrationTime)]
  let d2 : Document α :=
    if !rvecs.isEmpty || !reprojErrs.isEmpty then
      [Entry.field "nframes" (Value.int (max rvecs.length reprojErrs.length : Nat))]
    else []
  let d3 : Document α :=
    [Entry.field "image_width" (Value.int imageSize.width),
     Entry.field "image_height" (Value.int imageSize.height),
     Entry.field "board_width" (Value.int boardSize.width),
     Entry.field "board_height" (Value.int boardSize.height),
     Entry.field "square_size" (Value.real squareSize)]
  let d4 : Document α :=
    if flags &&& CV_CALIB_FIX_ASPECT_RATIO ≠ 0 then
      [Entry.field "aspectRatio" (Value.real aspectRatio)]
    else []
  let d5 : Document α :=
    if flags ≠ 0 then [Entry.comment (flagsComment flags)] else []
  let d6 : Document α :=
    [Entry.field "flags" (Value.int flags),
     Entry.field "camera_matrix" (Value.mat cameraMatrix),
     Entry.field "distortion_coefficients" (Value.mat distCoeffs),
     Entry.field "avg_reprojection_error" (Value.real totalAvgErr)]
  let d7 : Document α :=
    if !reprojErrs.isEmpty then
      [Entry.field "per_view_reprojection_errors"
        (Value.mat ⟨reprojErrs.length, 1, 4, reprojErrs⟩)]
    else []
  let d8 : Document α ←
    if !rvecs.isEmpty && !tvecs.isEmpty then do
      let rows ← extrinsicRows rvecs tvecs
      pure [Entry.comment
              "a set of 6-tuples (rotation vector + translation vector) for each view",
            Entry.field "extrinsic_parameters" (Value.mat ⟨rvecs.length, 6, 4, rows⟩)]
    else pure []
  let d9 : Document α :=
    match imagePoints with
    | [] => []
    | first :: _ =>
      [Entry.field "image_points"
        (Value.mat ⟨imagePoints.length, first.length, 8,
          imagePoints.flatMap (fun v => v.flatMap (fun p => [p.x, p.y]))⟩)]
  pure (d1 ++ d2 ++ d3 ++ d4 ++ d5 ++ d6 ++ d7 ++ d8 ++ d9)

/-! ## Run and save (`runAndSave`, lines 430-479) -/

/-- The function `runAndSave`: the flag it returns and the document it
persists, if it persists one. -/
def runAndSave {α : Type} [Field α] (ext : External α) (calibrationTime : String)
    (imagePoints : List (View α)) (imageSize boardSize : Size)
    (squareSize aspectRatio : α) (flags : Nat)
    (writeExtrinsics writePoints : Bool) :
    Except Fault (Bool × Option (Document α)) := do
  let r ← runCalibration ext imagePoints imageSize boardSize squareSize aspectRatio
    flags []
  if r.ok then
    let doc ← saveCameraParams calibrationTime imageSize boardSize squareSize
      aspectRatio flags r.cameraMatrix r.distCoeffs
      (if writeExtrinsics then r.rvecs else [])
      (if writeExtrinsics then r.tvecs else [])
      (if writeExtrinsics then r.reprojErrs else [])
      (if writePoints then imagePoints else [])
      r.totalAvgErr
    pure (true, some doc)
  else pure (false, none)

/-! ## The acquisition loop (`main`, lines 643-860) -/

/-- The enumeration `CalibState`. -/
inductive CalibState where
  | DETECTION
  | CAPTURING
  | CALIBRATED
  deriving DecidableEq, Repr

/-- A frame with pixel data, as far as the loop inspects it: its size, the
answer of `findChessboardCorners` and the corners after `cornerSubPix`. -/
structure Frame (α : Type) where
  size : Size
  found : Bool
  pointbuf : View α

/-- What is fixed once the loop is entered.  `captureOpened` is
`capture.isOpened()`; `imageList` holds for each listed file what `imread`
gives for it (`none` for a file that cannot be read); `delay` is in
milliseconds and `clocksPerSec` is `CLOCKS_PER_SEC`. -/
structure LoopConfig (α : Type) where
  captureOpened : Bool
  imageList : List (Option (Frame α))
  nframes : Nat
  delay : Int
  clocksPerSec : Int
  manualTrigger : Bool

/-- The variables of `main` that the loop reads and writes. -/
structure LoopState (α : Type) where
  mode : CalibState
  imagePoints : List (View α)
  imageSize : Size
  prevTimestamp : Int
  key : Int
  undistortImage : Bool
  i : Nat

/-- What the environment supplies during one pass of the loop: the frame the
capture delivers (`none` for a frame without data), the reading of `clock()`
at line 760 and at line 769, and the value `waitKey` returns. -/
structure StepEnv (α : Type) where
  view : Option (Frame α)
  clockTrigger : Int
  clockCapture : Int
  waitKey : Int

/-- The outcome of one pass: the variables after it, the view lists `runAndSave`
was called with during it, and whether the pass left the loop. -/
structure StepResult (α : Type) where
  state : LoopState α
  calls : List (List (View α))
  halted : Bool

def KEY_ESC : Int := 27
def KEY_c : Int := 99
def KEY_g : Int := 103
def KEY_u : Int := 117

/-- Lines 681-703: the frame of this pass. -/
def acquire {α : Type} (cfg : LoopConfig α) (s : LoopState α) (env : StepEnv α) :
    Option (Frame α) :=
  if cfg.captureOpened then env.view
  else if s.i < cfg.imageList.length then (cfg.imageList[s.i]?).join
  else none

/-- The expression `delay * 1e-3 * CLOCKS_PER_SEC` of line 760: the minimum
delay in clock ticks, taken over the rationals. -/
def delayTicks {α : Type} (cfg : LoopConfig α) : ℚ :=
  (cfg.delay : ℚ) * (1 / 1000) * (cfg.clocksPerSec : ℚ)

/-- Lines 753-761: the trigger.  In manual mode it reads `key` as the previous
pass left it; otherwise it compares the clock ticks elapsed since the last
capture with the minimum delay. -/
def trigger {α : Type} (cfg : LoopConfig α) (s : LoopState α) (env : StepEnv α) : Bool :=
  if cfg.manualTrigger then decide (s.key = KEY_c)
  else decide (((env.clockTrigger - s.prevTimestamp : Int) : ℚ) > delayTicks cfg)

/-- Lines 724-771: the frame size is recorded and a detected board is kept
when the loop is capturing and, on a capture device, the trigger fired. -/
def captureView {α : Type} (cfg : LoopConfig α) (s : LoopState α) (env : StepEnv α)
    (view : Frame α) : LoopState α :=
  let s1 := { s with imageSize := view.size }
  if s1.mode = CalibState.CAPTURING ∧ view.found = true ∧
      (cfg.captureOpened = false ∨ trigger cfg s env = true) then
    { s1 with imagePoints := s1.imagePoints ++ [view.pointbuf],
              prevTimestamp := env.clockCapture }
  else s1

/-- Lines 824-833: the keys `u` and `g`. -/
def handleKey {α : Type} (cfg : LoopConfig α) (s : LoopState α) : LoopState α :=
  let s1 :=
    if s.key = KEY_u ∧ s.mode = CalibState.CALIBRATED then
      { s with undistortImage := !s.undistortImage }
    else s
  if cfg.captureOpened = true ∧ s.key = KEY_g then
    { s1 with mode := CalibState.CAPTURING, imagePoints := [] }
  else s1

/-- Lines 835-859: the calibration once enough views are held; a pass that
goes on increments `i`. -/
def checkCalibrate {α : Type} (cfg : LoopConfig α)
    (runner : List (View α) → Size → Bool) (s : LoopState α) : StepResult α :=
  if s.mode = CalibState.CAPTURING ∧ cfg.nframes ≤ s.imagePoints.length then
    let mode1 :=
      if runner s.imagePoints s.imageSize then CalibState.CALIBRATED
      else CalibState.DETECTION
    let s1 := { s with mode := mode1 }
    if cfg.captureOpened then ⟨{ s1 with i := s1.i + 1 }, [s.imagePoints], false⟩
    else ⟨s1, [s.imagePoints], true⟩
  else ⟨{ s with i := s.i + 1 }, [], false⟩

/-- Lines 724-817: the variables once the key of this pass has been read
(`key = 0xff & waitKey(..)`, the low byte of the value returned). -/
def afterWaitKey {α : Type} (cfg : LoopConfig α) (s : LoopState α) (env : StepEnv α)
    (view : Frame α) : LoopState α :=
  { captureView cfg s env view with key := env.waitKey % 256 }

/-- The variables when the test of line 835 is reached in a pass that got the
frame `view` and did not quit. -/
def beforeCheck {α : Type} (cfg : LoopConfig α) (s : LoopState α) (env : StepEnv α)
    (view : Frame α) : LoopState α :=
  handleKey cfg (afterWaitKey cfg s env view)

/-- One pass of the loop body (lines 676-860).  `runner` is `runAndSave` with
all arguments but the view list and the image size fixed. -/
def step {α : Type} (cfg : LoopConfig α) (runner : List (View α) → Size → Bool)
    (s : LoopState α) (env : StepEnv α) : StepResult α :=
  match acquire cfg s env with
  | none =>
    ⟨s, if 0 < s.imagePoints.length then [s.imagePoints] else [], true⟩
  | some view =>
    if (afterWaitKey cfg s env view).key % 256 = KEY_ESC then
      ⟨afterWaitKey cfg s env view, [], true⟩
    else checkCalibrate cfg runner (beforeCheck cfg s env view)

/-- The loop over the passes the environment supplies: it stops at the pass
that leaves the loop. -/
def runLoop {α : Type} (cfg : LoopConfig α) (runner : List (View α) → Size → Bool) :
    LoopState α → List (StepEnv α) → StepResult α
  | s, [] => ⟨s, [], false⟩
  | s, env :: envs =>
    let r := step cfg runner s env
    if r.halted then r
    else
      let r2 := runLoop cfg runner r.state envs
      ⟨r2.state, r.calls ++ r2.calls, r2.halted⟩

/-- What `main` holds after the argument scan and what the environment
answers when the source is opened (lines 643-657). -/
structure Startup (α : Type) where
  hasInput : Bool
  videofile : Bool
  readStringList : Option (List (Option (Frame α)))
  fileOpens : Bool
  cameraOpens : Bool
  nframes : Nat
  delay : Int
  clocksPerSec : Int
  manualTrigger : Bool
  key : Int

/-- Lines 643-667: the source is opened, the loop configuration and the first
loop state are fixed, or `main` returns `-2`. -/
def startup {α : Type} (a : Startup α) : Except Int (LoopConfig α × LoopState α) :=
  let listRead : Bool := a.hasInput && !a.videofile && a.readStringList.isSome
  let imageList : List (Option (Frame α)) :=
    if listRead then a.readStringList.getD [] else []
  let mode := if listRead then CalibState.CAPTURING else CalibState.DETECTION
  let opened : Bool :=
    if a.hasInput then (if listRead then false else a.fileOpens) else a.cameraOpens
  if !opened && imageList.isEmpty then .error (-2)
  else
    let nframes := if !imageList.isEmpty then imageList.length else a.nframes
    .ok (⟨opened, imageList, nframes, a.delay, a.clocksPerSec, a.manualTrigger⟩,
         ⟨mode, [], ⟨0, 0⟩, 0, a.key, false, 0⟩)

/-- The point sets of the frames in which the board is found, in list order. -/
def detectedViews {α : Type} (imgs : List (Frame α)) : List (View α) :=
  (imgs.filter (fun f => f.found)).map (fun f => f.pointbuf)

/-! ## The argument scan and the start of `main` (lines 488-667) -/

/-- The calls of `sscanf` in the scan: with `%u` and with `%d` into an `int`
(the value is the one the `int` then holds) and with `%f` into a `float`;
`none` when `sscanf` does not return 1. -/
structure Libc (α : Type) where
  scanUnsigned : String → Option Int
  scanInt : String → Option Int
  scanFloat : String → Option α

/-- The variables of `main` that the argument scan sets. -/
structure Args (α : Type) where
  boardSize : Size
  squareSize : α
  aspectRatio : α
  outputFilename : Option String
  inputFilename : Option String
  nframes : Int
  writeExtrinsics : Bool
  writePoints : Bool
  flags : Nat
  flipVertical : Bool
  showUndistorted : Bool
  videofile : Bool
  delay : Int
  cameraId : Int
  reduceFactor : Int
  manualTrigger : Bool

/-- The initial values of lines 490-511. -/
def Args.initial {α : Type} [One α] : Args α :=
  ⟨⟨0, 0⟩, 1, 1, some "out_camera_data.yml", none, 10, false, false, 0, false, false,
   false, 1000, 0, 1, false⟩

/-- The effect of one pass of the scan loop on the argument `s`: the variables
after an argument that stands alone (`plain`) or after an argument that took
the next one as its value (`valued`), a `return` of `main`, or the read of a
value behind the last argument by `sscanf` (`crashed`). -/
inductive ScanStep (α : Type) where
  | plain (a : Args α)
  | valued (a : Args α)
  | returned (code : Int)
  | crashed

/-- One pass of the scan loop (lines 522-638); `next` is `argv[i + 1]`, absent
behind the last argument. -/
def scanStep {α : Type} [LinearOrderedField α] (libc : Libc α) (a : Args α) (s : String)
    (next : Option String) : ScanStep α :=
  if s = "-w" then
    match next with
    | none => .crashed
    | some v =>
      match libc.scanUnsigned v with
      | none => .returned (-1)
      | some w =>
        if w ≤ 0 then .returned (-1)
        else .valued { a with boardSize := ⟨w, a.boardSize.height⟩ }
  else if s = "-h" then
    match next with
    | none => .crashed
    | some v =>
      match libc.scanUnsigned v with
      | none => .returned (-1)
      | some h =>
        if h ≤ 0 then .returned (-1)
        else .valued { a with boardSize := ⟨a.boardSize.width, h⟩ }
  else if s = "-s" then
    match next with
    | none => .crashed
    | some v =>
      match libc.scanFloat v with
      | none => .returned (-1)
      | some x => if x ≤ 0 then .returned (-1) else .valued { a with squareSize := x }
  else if s = "-n" then
    match next with
    | none => .crashed
    | some v =>
      match libc.scanUnsigned v with
      | none => .returned (-1)
      | some n => if n ≤ 3 then .returned (-1) else .valued { a with nframes := n }
  else if s = "-a" then
    match next with
    | none => .crashed
    | some v =>
      match libc.scanFloat v with
      | none => .returned (-1)
      | some x =>
        if x ≤ 0 then .returned (-1)
        else .valued { a with aspectRatio := x,
                              flags := a.flags ||| CV_CALIB_FIX_ASPECT_RATIO }
  else if s = "-d" then
    match next with
    | none => .crashed
    | some v =>
      match libc.scanUnsigned v with
      | none => .returned (-1)
      | some d => if d ≤ 0 then .returned (-1) else .valued { a with delay := d }
  else if s = "-op" then .plain { a with writePoints := true }
  else if s = "-oe" then .plain { a with writeExtrinsics := true }
  else if s = "-zt" then .plain { a with flags := a.flags ||| CV_CALIB_ZERO_TANGENT_DIST }
  else if s = "-p" then .plain { a with flags := a.flags ||| CV_CALIB_FIX_PRINCIPAL_POINT }
  else if s = "-v" then .plain { a with flipVertical := true }
  else if s = "-V" then .plain { a with videofile := true }
  else if s = "-o" then .valued { a with outputFilename := next }
  else if s = "-su" then .plain { a with showUndistorted := true }
  else if s = "--device" then
    match next with
    | none => .crashed
    | some v =>
      let c := (libc.scanInt v).getD a.cameraId
      .valued { a with cameraId := if c < 0 then 0 else c }
  else if s = "--reduce" then
    match next with
    | none => .crashed
    | some v =>
      let r := (libc.scanInt v).getD a.reduceFactor
      .valued { a with reduceFactor := if r ≤ 0 then 1 else r }
  else if s.data.head? ≠ some '-' then
    if (s.data.head?.map Char.isDigit).getD false then
      .plain { a with cameraId := (libc.scanInt s).getD a.cameraId }
    else .plain { a with inputFilename := some s }
  else if s = "-m" ∨ s = "--manual" then .plain { a with manualTrigger := true }
  else .returned (-1)

/-- How the argument scan ends: with the variables set, with a `return` of
`main`, or with a crash. -/
inductive ScanResult (α : Type) where
  | done (a : Args α)
  | returned (code : Int)
  | crashed

/-- The scan loop `for (i = 1; i < argc; i++)` (lines 520-639) over the
arguments that follow the program name. -/
def scanArgs {α : Type} [LinearOrderedField α] (libc : Libc α) :
    Args α → List String → ScanResult α
  | a, [] => .done a
  | a, [s] =>
    match scanStep libc a s none with
    | .plain a1 => .done a1
    | .valued a1 => .done a1
    | .returned code => .returned code
    | .crashed => .crashed
  | a, s :: v :: rest =>
    match scanStep libc a s (some v) with
    | .plain a1 => scanArgs libc a1 (v :: rest)
    | .valued a1 => scanArgs libc a1 rest
    | .returned code => .returned code
    | .crashed => .crashed

/-- What the environment answers when `main` opens its source: the outcome of
`readStringList` on a file, whether `capture.open` succeeds on a file and on a
camera, `CLOCKS_PER_SEC`, and the indeterminate first value of `key`. -/
structure SourceEnv (α : Type) where
  readStringList : String → Option (List (Option (Frame α)))
  fileOpens : String → Bool
  cameraOpens : Int → Bool
  clocksPerSec : Int
  key : Int

/-- The state of `main` at line 643, from the scanned variables. -/
def Args.toStartup {α : Type} (a : Args α) (env : SourceEnv α) : Startup α :=
  ⟨a.inputFilename.isSome, a.videofile, a.inputFilename.bind env.readStringList,
   (a.inputFilename.map env.fileOpens).getD false, env.cameraOpens a.cameraId,
   a.nframes.toNat, a.delay, env.clocksPerSec, a.manualTrigger, env.key⟩

/-- How far `main` gets up to the loop: it returns before it touches a source,
it crashes in the scan, or it reaches lines 643-667, where it reads the image
list or opens the capture, and then returns `-2` or enters the loop. -/
inductive MainStart (α : Type) where
  | returned (code : Int)
  | crashed
  | sourceTried (r : Except Int (LoopConfig α × LoopState α))

/-- The function `main` of `calibration.cpp` up to the loop (lines 514-667). -/
def mainStart {α : Type} [LinearOrderedField α] (libc : Libc α) (env : SourceEnv α)
    (argv : List String) : MainStart α :=
  if argv.length < 2 then .returned 0
  else
    match scanArgs libc Args.initial argv.tail with
    | .returned code => .returned code
    | .crashed => .crashed
    | .done a => .sourceTried (startup (a.toStartup env))

/-! ## Inputs used in the examples -/

/-- A 640 by 480 frame in which the board is found, with one corner `(k, k)`. -/
def frameFound (k : Int) : Frame Int := ⟨⟨640, 480⟩, true, [⟨k, k⟩]⟩

/-- A 640 by 480 frame in which no board is found. -/
def frameMissed : Frame Int := ⟨⟨640, 480⟩, false, []⟩

/-- A camera with target count 4 and a minimum delay of 1000 ms, with one
million clock ticks per second. -/
def cameraConfig (manualTrigger : Bool) : LoopConfig Int :=
  ⟨true, [], 4, 1000, 1000000, manualTrigger⟩

/-- A pass on a camera: the frame delivered, both clock readings equal to
`clock`, and the value of `waitKey` (`-1` when no key is pressed). -/
def cameraPass (view : Option (Frame Int)) (clock waitKey : Int) : StepEnv Int :=
  ⟨view, clock, clock, waitKey⟩

/-- An image list of three files that all load; the board is found in the
first and in the third. -/
def listImages : List (Frame Int) := [frameFound 1, frameMissed, frameFound 3]

/-- The start of `main` on `listImages`. -/
def listStartup : Startup Int :=
  ⟨true, false, some (listImages.map some), false, false, 10, 1000, 1000000, false, 0⟩

/-- The loop configuration `startup` fixes for `listStartup`. -/
def listConfig : LoopConfig Int :=
  ⟨false, listImages.map some, 3, 1000, 1000000, false⟩

/-- Five passes of one capture session on a camera with the manual trigger:
a board is found in every frame and the key `c` is pressed in the first four
passes, so that the frames of the last four passes are kept. -/
def sessionPasses : List (StepEnv Int) :=
  [cameraPass (some (frameFound 0)) 0 99, cameraPass (some (frameFound 1)) 0 99,
   cameraPass (some (frameFound 2)) 0 99, cameraPass (some (frameFound 3)) 0 99,
   cameraPass (some (frameFound 4)) 0 (-1)]

/-- The four views kept during `sessionPasses`. -/
def sessionViews : List (View Int) := [[⟨1, 1⟩], [⟨2, 2⟩], [⟨3, 3⟩], [⟨4, 4⟩]]

/-- Stand-ins over the rationals for the OpenCV routines: the identity for
the square root, the projection that drops the z-coordinate, a solver that
returns its initial guess with one zero pose per view, and a range check that
accepts. -/
def exampleExternal : External ℚ :=
  ⟨fun x => x, fun o _ _ _ _ => o.map (fun p => ⟨p.x, p.y⟩),
   fun _ i _ c d _ =>
     ⟨c, d, i.map (fun _ => ⟨3, 1, 8, [0, 0, 0]⟩), i.map (fun _ => ⟨3, 1, 8, [0, 0, 0]⟩), 0⟩,
   fun _ => true⟩

/-- A pose vector of three zeros, 3 x 1 of type `CV_64F`. -/
def examplePose : Mat ℚ := ⟨3, 1, 8, [0, 0, 0]⟩

/-- What a run of `runAndSave` shows about `nframes`: the flag returned and,
when a document is persisted, the `nframes` field read back from it. -/
def nframesReport {α : Type} (r : Except Fault (Bool × Option (Document α))) :
    Except Fault (Bool × Option (Option (Value α))) :=
  r.map (fun p => (p.1, p.2.map (Document.lookup "nframes")))

/-- Whether a computation ends in a fault instead of returning a value. -/
def isFault {β : Type} (r : Except Fault β) : Bool :=
  match r with
  | .error _ => true
  | .ok _ => false

/-- A stand-in for `sscanf` that reads the texts `0`, `4` and `5`. -/
def exampleLibc : Libc ℚ :=
  ⟨fun s => if s = "0" then some 0 else if s = "4" then some 4 else if s = "5" then some 5
     else none,
   fun s => if s = "0" then some 0 else if s = "4" then some 4 else if s = "5" then some 5
     else none,
   fun s => if s = "0" then some 0 else if s = "4" then some 4 else if s = "5" then some 5
     else none⟩

/-- An environment in which every camera opens and no file does. -/
def exampleSource : SourceEnv ℚ :=
  ⟨fun _ => none, fun _ => false, fun _ => true, 1000000, 0⟩

/-- A 640 by 480 frame over the rationals in which the board is found, with
one corner `(k, k)`. -/
def deviceFrame (k : ℚ) : Frame ℚ := ⟨⟨640, 480⟩, true, [⟨k, k⟩]⟩

/-- Six passes on a camera with the manual trigger: the key `g` is pressed in
the first pass and the key `c` in the next four, so that the frames of the last
four passes are kept. -/
def startedSessionPasses : List (StepEnv ℚ) :=
  [⟨some (deviceFrame 9), 0, 0, 103⟩, ⟨some (deviceFrame 0), 0, 0, 99⟩,
   ⟨some (deviceFrame 1), 0, 0, 99⟩, ⟨some (deviceFrame 2), 0, 0, 99⟩,
   ⟨some (deviceFrame 3), 0, 0, 99⟩, ⟨some (deviceFrame 4), 0, 0, -1⟩]

/-! ## The companion reader (`readCalibrationMatrix.cpp`, lines 20-59) -/

def EXIT_SUCCESS : Int := 0
def EXIT_FAILURE : Int := 1

/-- A line the reader prints. -/
inductive ReaderLine (α : Type) where
  | usage (name : String)
  | failedToOpen (filename : String)
  | matrixSize (rows cols : Nat)
  | matrixElementSize (n : Nat)
  | cameraMatrix (m : Mat α)
  deriving DecidableEq, Repr

/-- A run of the reader: what went to `cerr`, what went to `cout`, and the exit
status (`none` when an uncaught OpenCV exception ends the process). -/
structure ReaderRun (α : Type) where
  stderr : List (ReaderLine α)
  stdout : List (ReaderLine α)
  exit : Option Int
  deriving DecidableEq, Repr

/-- The read `node >> mat` of OpenCV: an absent node leaves the default (empty)
matrix, a matrix node gives its matrix, any other node throws. -/
def readMat {α : Type} (node : Option (Value α)) : Except Fault (Mat α) :=
  match node with
  | none => .ok Mat.empty
  | some (Value.mat m) => .ok m
  | some _ => .error .assertion

/-- The function `main` of the reader.  `openStorage` tells for each path
whether a `FileStorage` opens on it and with what content. -/
def readCalibrationMatrixMain {α : Type} (openStorage : String → Option (Document α))
    (argv : List String) : ReaderRun α :=
  let err1 : List (ReaderLine α) :=
    if argv.length < 2 then [ReaderLine.usage (argv.headD "")] else []
  let filename : String := if argv.length < 2 then "" else argv.getD 1 ""
  match openStorage filename with
  | none => ⟨err1 ++ [ReaderLine.failedToOpen filename], [], some EXIT_FAILURE⟩
  | some fs =>
    match readMat (Document.lookup "camera_matrix" fs) with
    | .error _ => ⟨err1, [], none⟩
    | .ok cameraMatrix =>
      ⟨err1,
       [ReaderLine.matrixSize cameraMatrix.rows cameraMatrix.cols,
        ReaderLine.matrixElementSize cameraMatrix.elemSize,
        ReaderLine.cameraMatrix cameraMatrix],
       some EXIT_SUCCESS⟩

/-! ## Helper lemmas on loops that push -/

theorem foldl_push_eq {β γ : Type} (f : γ → β) (l : List γ) (init : List β) :
    l.foldl (fun cs j => cs ++ [f j]) init = init ++ l.map f := by
  induction l generalizing init with
  | nil => simp
  | cons a l ih => simp [ih]

theorem foldl_append_eq {β γ : Type} (g : γ → List β) (l : List γ) (init : List β) :
    l.foldl (fun cs i => cs ++ g i) init = init ++ l.flatMap g := by
  induction l generalizing init with
  | nil => simp
  | cons a l ih => simp [ih]

theorem grid_length {β : Type} (f : Nat → Nat → β) (W H : Nat) :
    ((List.range H).flatMap (fun i => (List.range W).map (f i))).length = H * W := by
  induction H with
  | zero => simp
  | succ n ih =>
    rw [List.range_succ, List.flatMap_append, List.length_append, ih]
    simp [Nat.succ_mul]

theorem grid_getElem? {β : Type} (f : Nat → Nat → β) (W H r c : Nat)
    (hr : r < H) (hc : c < W) :
    ((List.range H).flatMap (fun i => (List.range W).map (f i)))[r * W + c]?
      = some (f r c) := by
  induction H with
  | zero => omega
  | succ n ih =>
    rw [List.range_succ, List.flatMap_append]
    by_cases h : r < n
    · have hlt : r * W + c < n * W := by
        have : (r + 1) * W ≤ n * W := Nat.mul_le_mul_right W h
        rw [Nat.succ_mul] at this
        omega
      rw [List.getElem?_append_left (by rw [grid_length]; exact hlt)]
      exact ih h
    · have hrn : r = n := by omega
      subst hrn
      rw [List.getElem?_append_right (by rw [grid_length]; omega), grid_length]
      simp [hc]

theorem calcChessboardCorners_eq {α : Type} [NatCast α] [Mul α] [Zero α]
    (boardSize : Size) (squareSize : α) (corners : List (Point3f α)) :
    calcChessboardCorners boardSize squareSize corners
      = (List.range boardSize.height.toNat).flatMap (fun (i : Nat) =>
          (List.range boardSize.width.toNat).map (fun (j : Nat) =>
            (⟨(j : α) * squareSize, (i : α) * squareSize, 0⟩ : Point3f α))) := by
  unfold calcChessboardCorners
  have h : ∀ (cs : List (Point3f α)) (i : Nat),
      (List.range boardSize.width.toNat).foldl
        (fun (cs : List (Point3f α)) (j : Nat) =>
          cs ++ [(⟨(j : α) * squareSize, (i : α) * squareSize, 0⟩ : Point3f α)]) cs
      = cs ++ (List.range boardSize.width.toNat).map (fun (j : Nat) =>
          (⟨(j : α) * squareSize, (i : α) * squareSize, 0⟩ : Point3f α)) :=
    fun cs i => foldl_push_eq _ _ cs
  simp only [h]
  rw [foldl_append_eq]
  simp

/-! ## Board geometry -/

/-- C1: for a board of width `W > 0`, height `H > 0` and square size `S`,
`calcChessboardCorners` returns exactly `W * H` points whatever the output
vector held before, the point at index `r * W + c` is `(c * S, r * S, 0)` for
every `r < H` and `c < W`, and every z-coordinate is `0`. -/
theorem calcChessboardCorners_spec {α : Type} [NatCast α] [Mul α] [Zero α]
    (W H : Nat) (S : α) (previous : List (Point3f α)) (hW : 0 < W) (hH : 0 < H) :
    (calcChessboardCorners ⟨W, H⟩ S previous).length = W * H ∧
    (∀ r c : Nat, r < H → c < W →
      (calcChessboardCorners ⟨W, H⟩ S previous)[r * W + c]?
        = some ⟨(c : α) * S, (r : α) * S, 0⟩) ∧
    (∀ p ∈ calcChessboardCorners ⟨W, H⟩ S previous, p.z = 0) := by
  have _ := hW
  have _ := hH
  rw [calcChessboardCorners_eq]
  simp only [Int.toNat_ofNat]
  refine ⟨?_, ?_, ?_⟩
  · rw [grid_length, Nat.mul_comm]
  · intro r c hr hc
    exact grid_getElem? (fun (i j : Nat) => (⟨(j : α) * S, (i : α) * S, 0⟩ : Point3f α)) W H r c hr hc
  · intro p hp
    simp only [List.mem_flatMap, List.mem_map, List.mem_range] at hp
    obtain ⟨i, _, j, _, rfl⟩ := hp
    rfl

/-- Witness for C1: a 4 by 5 board with square size 2 over the integers and a
non-empty previous vector; the point of row 2 and column 3. -/
theorem calcChessboardCorners_spec_witness :
    (0 < 4 ∧ 0 < 5 ∧ 2 < 5 ∧ 3 < 4) ∧
    (@calcChessboardCorners Int _ _ _ ⟨(4 : Nat), (5 : Nat)⟩ 2 [⟨7, 7, 7⟩]).length = 4 * 5 ∧
    (@calcChessboardCorners Int _ _ _ ⟨(4 : Nat), (5 : Nat)⟩ 2 [⟨7, 7, 7⟩])[2 * 4 + 3]?
      = some ⟨((3 : Nat) : Int) * 2, ((2 : Nat) : Int) * 2, 0⟩ ∧
    (⟨6, 4, 0⟩ : Point3f Int).z = 0 :=
  ⟨by decide,
   (calcChessboardCorners_spec 4 5 (2 : Int) [⟨7, 7, 7⟩] (by decide) (by decide)).1,
   (calcChessboardCorners_spec 4 5 (2 : Int) [⟨7, 7, 7⟩] (by decide) (by decide)).2.1 2 3
     (by decide) (by decide),
   (calcChessboardCorners_spec 4 5 (2 : Int) [⟨7, 7, 7⟩] (by decide) (by decide)).2.2
     ⟨6, 4, 0⟩ (by decide)⟩

/-! ## Reprojection scoring -/

theorem resizeWith_one_set {β : Type} (prev : List β) (z v : β) :
    (resizeWith prev 1 z).set 0 v = [v] := by
  cases prev with
  | nil => rfl
  | cons a l => simp [resizeWith]

theorem sum_sq_offset (pred : List (Point2f ℝ)) (vx vy : ℝ) :
    (List.zipWith
      (fun (p q : Point2f ℝ) => (p.x - q.x) * (p.x - q.x) + (p.y - q.y) * (p.y - q.y))
      (pred.map (fun p => (⟨p.x + vx, p.y + vy⟩ : Point2f ℝ))) pred).sum
      = (pred.length : ℝ) * (vx * vx + vy * vy) := by
  induction pred with
  | nil => simp
  | cons a l ih =>
    simp only [List.map_cons, List.zipWith_cons_cons, List.sum_cons, List.length_cons, ih]
    push_cast
    ring

/-- C2: over the reals, with the projection taken as given, a single view of
`N ≥ 1` points whose observed points all differ from the projected points by
the same vector `(vx, vy)` of magnitude `d ≥ 0` gets the per-view error `d`
(and the average error `d`), for every `N` and `d`. -/
theorem computeReprojectionErrors_constant_offset
    (ext : External ℝ) (obj : List (Point3f ℝ)) (rvec tvec cam dist : Mat ℝ)
    (previous : List ℝ) (vx vy d : ℝ)
    (hsqrt : ext.sqrt = Real.sqrt)
    (hN : 1 ≤ obj.length)
    (hproj : (ext.projectPoints obj rvec tvec cam dist).length = obj.length)
    (hd : 0 ≤ d) (hmag : vx * vx + vy * vy = d * d) :
    computeReprojectionErrors ext [obj]
        [(ext.projectPoints obj rvec tvec cam dist).map
          (fun p => (⟨p.x + vx, p.y + vy⟩ : Point2f ℝ))]
        [rvec] [tvec] cam dist previous
      = .ok (d, [d]) := by
  have hNpos : (0 : ℝ) < (obj.length : ℝ) := by exact_mod_cast hN
  have hsum := sum_sq_offset (ext.projectPoints obj rvec tvec cam dist) vx vy
  rw [hproj, hmag] at hsum
  have hnn : (0 : ℝ) ≤ (obj.length : ℝ) * (d * d) :=
    mul_nonneg hNpos.le (mul_self_nonneg d)
  have herr : Real.sqrt ((obj.length : ℝ) * (d * d)) * Real.sqrt ((obj.length : ℝ) * (d * d))
      = (obj.length : ℝ) * (d * d) := Real.mul_self_sqrt hnn
  have hdiv : (obj.length : ℝ) * (d * d) / (obj.length : ℝ) = d * d := by
    field_simp
  have hrange : List.range 1 = [0] := rfl
  have hne : obj.isEmpty = false := by
    cases obj with
    | nil => exact absurd hN (by decide)
    | cons _ _ => rfl
  simp only [computeReprojectionErrors, List.length_singleton, hrange, projectPoints, hne,
    Bool.false_eq_true, if_false,
    List.foldlM_cons, List.foldlM_nil, reprojBody, vecAt, normL2, List.getElem?_cons_zero,
    List.length_map, hproj, if_true, hsum, hsqrt, herr, hdiv, Real.sqrt_mul_self hd,
    resizeWith_one_set, zero_add, Nat.cast_zero, bind, Except.bind, pure, Except.pure,
    Nat.cast_add]

/-- Witness for C2: one point projected to the origin and observed at `(3, 4)`,
so that `d = 5`. -/
theorem computeReprojectionErrors_constant_offset_witness :
    ((1 : Nat) ≤ [(⟨0, 0, 0⟩ : Point3f ℝ)].length ∧ (0 : ℝ) ≤ 5 ∧
      (3 : ℝ) * 3 + 4 * 4 = 5 * 5) ∧
    computeReprojectionErrors
        (⟨Real.sqrt, fun o _ _ _ _ => o.map (fun p => ⟨p.x, p.y⟩),
          fun _ _ _ c k _ => ⟨c, k, [], [], 0⟩, fun _ => true⟩ : External ℝ)
        [[⟨0, 0, 0⟩]]
        [(External.projectPoints
            (⟨Real.sqrt, fun o _ _ _ _ => o.map (fun p => ⟨p.x, p.y⟩),
              fun _ _ _ c k _ => ⟨c, k, [], [], 0⟩, fun _ => true⟩ : External ℝ)
            [⟨0, 0, 0⟩] Mat.empty Mat.empty Mat.empty Mat.empty).map
          (fun p => (⟨p.x + 3, p.y + 4⟩ : Point2f ℝ))]
        [Mat.empty] [Mat.empty] Mat.empty Mat.empty []
      = .ok (5, [5]) := by
  have h := computeReprojectionErrors_constant_offset
    (⟨Real.sqrt, fun o _ _ _ _ => o.map (fun p => ⟨p.x, p.y⟩),
      fun _ _ _ c k _ => ⟨c, k, [], [], 0⟩, fun _ => true⟩ : External ℝ)
    [⟨0, 0, 0⟩] Mat.empty Mat.empty Mat.empty Mat.empty [] 3 4 5 rfl (Nat.le_refl 1)
    (List.length_map _ _) (by norm_num) (by norm_num)
  exact ⟨⟨Nat.le_refl 1, by norm_num, by norm_num⟩, h⟩

/-! ## The acquisition loop: single passes -/

theorem handleKey_restart {α : Type} (cfg : LoopConfig α) (s : LoopState α)
    (ho : cfg.captureOpened = true) (hg : s.key = KEY_g) :
    (handleKey cfg s).mode = CalibState.CAPTURING ∧ (handleKey cfg s).imagePoints = [] := by
  have hgu : ¬ KEY_g = KEY_u := by decide
  simp [handleKey, hgu, ho, hg]

theorem handleKey_keep {α : Type} (cfg : LoopConfig α) (s : LoopState α)
    (h : cfg.captureOpened = false ∨ s.key ≠ KEY_g) :
    (handleKey cfg s).mode = s.mode ∧ (handleKey cfg s).imagePoints = s.imagePoints := by
  have hng : ¬ (cfg.captureOpened = true ∧ s.key = KEY_g) := by
    rintro ⟨h1, h2⟩
    rcases h with h | h
    · rw [h] at h1; exact Bool.noConfusion h1
    · exact h h2
  unfold handleKey
  rw [if_neg hng]
  split_ifs <;> exact ⟨rfl, rfl⟩

theorem handleKey_fields {α : Type} (cfg : LoopConfig α) (s : LoopState α) :
    (handleKey cfg s).imageSize = s.imageSize ∧ (handleKey cfg s).i = s.i ∧
    (handleKey cfg s).key = s.key ∧ (handleKey cfg s).prevTimestamp = s.prevTimestamp := by
  unfold handleKey
  split_ifs <;> exact ⟨rfl, rfl, rfl, rfl⟩

theorem captureView_fields {α : Type} (cfg : LoopConfig α) (s : LoopState α)
    (env : StepEnv α) (view : Frame α) :
    (captureView cfg s env view).mode = s.mode ∧ (captureView cfg s env view).i = s.i ∧
    (captureView cfg s env view).imageSize = view.size := by
  simp only [captureView]
  split_ifs <;> exact ⟨rfl, rfl, rfl⟩

theorem captureView_imagePoints {α : Type} (cfg : LoopConfig α) (s : LoopState α)
    (env : StepEnv α) (view : Frame α) :
    (captureView cfg s env view).imagePoints =
      if s.mode = CalibState.CAPTURING ∧ view.found = true ∧
          (cfg.captureOpened = false ∨ trigger cfg s env = true) then
        s.imagePoints ++ [view.pointbuf]
      else s.imagePoints := by
  simp only [captureView]
  split_ifs <;> rfl

theorem afterWaitKey_fields {α : Type} (cfg : LoopConfig α) (s : LoopState α)
    (env : StepEnv α) (view : Frame α) :
    (afterWaitKey cfg s env view).mode = s.mode ∧ (afterWaitKey cfg s env view).i = s.i ∧
    (afterWaitKey cfg s env view).key = env.waitKey % 256 ∧
    (afterWaitKey cfg s env view).imagePoints = (captureView cfg s env view).imagePoints := by
  simp [afterWaitKey, captureView_fields]

theorem step_of_frame {α : Type} (cfg : LoopConfig α)
    (runner : List (View α) → Size → Bool) (s : LoopState α) (env : StepEnv α)
    (view : Frame α) (hview : acquire cfg s env = some view)
    (hkey : env.waitKey % 256 ≠ KEY_ESC) :
    step cfg runner s env = checkCalibrate cfg runner (beforeCheck cfg s env view) := by
  have hk : ¬ (afterWaitKey cfg s env view).key % 256 = KEY_ESC := by
    simpa [afterWaitKey] using hkey
  simp [step, hview, hk]

theorem captureView_prevTimestamp {α : Type} (cfg : LoopConfig α) (s : LoopState α)
    (env : StepEnv α) (view : Frame α) :
    (captureView cfg s env view).prevTimestamp =
      if s.mode = CalibState.CAPTURING ∧ view.found = true ∧
          (cfg.captureOpened = false ∨ trigger cfg s env = true) then
        env.clockCapture
      else s.prevTimestamp := by
  simp only [captureView]
  split_ifs <;> rfl

theorem checkCalibrate_fields {α : Type} (cfg : LoopConfig α)
    (runner : List (View α) → Size → Bool) (s : LoopState α) :
    (checkCalibrate cfg runner s).state.imagePoints = s.imagePoints ∧
    (checkCalibrate cfg runner s).state.prevTimestamp = s.prevTimestamp ∧
    (checkCalibrate cfg runner s).state.key = s.key := by
  simp only [checkCalibrate]
  split_ifs <;> exact ⟨rfl, rfl, rfl⟩

theorem checkCalibrate_idle {α : Type} (cfg : LoopConfig α)
    (runner : List (View α) → Size → Bool) (s : LoopState α)
    (h : ¬ (s.mode = CalibState.CAPTURING ∧ cfg.nframes ≤ s.imagePoints.length)) :
    checkCalibrate cfg runner s = ⟨{ s with i := s.i + 1 }, [], false⟩ := by
  simp only [checkCalibrate, if_neg h]

theorem checkCalibrate_reached {α : Type} (cfg : LoopConfig α)
    (runner : List (View α) → Size → Bool) (s : LoopState α)
    (h : s.mode = CalibState.CAPTURING ∧ cfg.nframes ≤ s.imagePoints.length) :
    (checkCalibrate cfg runner s).calls = [s.imagePoints] ∧
    (checkCalibrate cfg runner s).halted = !cfg.captureOpened ∧
    (checkCalibrate cfg runner s).state.mode ≠ CalibState.CAPTURING ∧
    (checkCalibrate cfg runner s).state.mode =
      (if runner s.imagePoints s.imageSize then CalibState.CALIBRATED
       else CalibState.DETECTION) := by
  simp only [checkCalibrate, if_pos h]
  cases cfg.captureOpened <;> cases runner s.imagePoints s.imageSize <;> simp

theorem step_imagePoints {α : Type} (cfg : LoopConfig α)
    (runner : List (View α) → Size → Bool) (s : LoopState α) (env : StepEnv α)
    (view : Frame α) (hview : acquire cfg s env = some view)
    (hg : cfg.captureOpened = false ∨ env.waitKey % 256 ≠ KEY_g) :
    (step cfg runner s env).state.imagePoints = (captureView cfg s env view).imagePoints ∧
    (step cfg runner s env).state.prevTimestamp
      = (captureView cfg s env view).prevTimestamp := by
  have hf := afterWaitKey_fields cfg s env view
  by_cases hk : (afterWaitKey cfg s env view).key % 256 = KEY_ESC
  · simp only [step, hview, hk, if_true]
    exact ⟨hf.2.2.2, rfl⟩
  · simp only [step, hview, hk, if_false]
    have hg2 : cfg.captureOpened = false ∨ (afterWaitKey cfg s env view).key ≠ KEY_g := by
      rw [hf.2.2.1]; exact hg
    have h1 := handleKey_keep cfg (afterWaitKey cfg s env view) hg2
    have h2 := handleKey_fields cfg (afterWaitKey cfg s env view)
    have h3 := checkCalibrate_fields cfg runner (beforeCheck cfg s env view)
    refine ⟨?_, ?_⟩
    · rw [h3.1]; unfold beforeCheck; rw [h1.2, hf.2.2.2]
    · rw [h3.2.1]; unfold beforeCheck; rw [h2.2.2.2]; rfl

/-- Counterexample for C4: a capture device with target 4 holds 3 views and is
capturing; the pass adds the fourth view and the runner reports failure.  The
state becomes `DETECTION`, yet the view list still holds the 4 views. -/
theorem failure_keeps_views_example :
    (step (⟨true, [], 4, 1000, 1000000, true⟩ : LoopConfig Int) (fun _ _ => false)
        ⟨CalibState.CAPTURING, [[⟨1, 1⟩], [⟨2, 2⟩], [⟨3, 3⟩]], ⟨640, 480⟩, 0, 99, false, 7⟩
        ⟨some ⟨⟨640, 480⟩, true, [⟨4, 4⟩]⟩, 0, 0, -1⟩).state.mode = CalibState.DETECTION ∧
    (step (⟨true, [], 4, 1000, 1000000, true⟩ : LoopConfig Int) (fun _ _ => false)
        ⟨CalibState.CAPTURING, [[⟨1, 1⟩], [⟨2, 2⟩], [⟨3, 3⟩]], ⟨640, 480⟩, 0, 99, false, 7⟩
        ⟨some ⟨⟨640, 480⟩, true, [⟨4, 4⟩]⟩, 0, 0, -1⟩).state.imagePoints
      = [[⟨1, 1⟩], [⟨2, 2⟩], [⟨3, 3⟩], [⟨4, 4⟩]] := by
  decide

/-- C4 (amended): in a pass that reaches the test of line 835 capturing with
at least the target number of views, a runner that reports failure is called
once with those views, the state becomes `DETECTION`, and the view list is
left as it is. -/
theorem failure_resets_mode_keeps_views {α : Type} (cfg : LoopConfig α)
    (runner : List (View α) → Size → Bool) (s : LoopState α) (env : StepEnv α)
    (view : Frame α)
    (hview : acquire cfg s env = some view)
    (hkey : env.waitKey % 256 ≠ KEY_ESC)
    (hmode : (beforeCheck cfg s env view).mode = CalibState.CAPTURING)
    (hcount : cfg.nframes ≤ (beforeCheck cfg s env view).imagePoints.length)
    (hfail : runner (beforeCheck cfg s env view).imagePoints
      (beforeCheck cfg s env view).imageSize = false) :
    (step cfg runner s env).state.mode = CalibState.DETECTION ∧
    (step cfg runner s env).state.imagePoints = (beforeCheck cfg s env view).imagePoints ∧
    (step cfg runner s env).calls = [(beforeCheck cfg s env view).imagePoints] := by
  have hk : ¬ (afterWaitKey cfg s env view).key % 256 = KEY_ESC := by
    simpa [afterWaitKey] using hkey
  simp only [step, hview, hk, if_false, checkCalibrate, hmode, hcount, hfail, and_self,
    if_true]
  cases cfg.captureOpened <;> simp

/-- Witness for C4 (amended): the pass of `failure_keeps_views_example`. -/
theorem failure_resets_mode_keeps_views_witness :
    (step (⟨true, [], 4, 1000, 1000000, true⟩ : LoopConfig Int) (fun _ _ => false)
        ⟨CalibState.CAPTURING, [[⟨1, 1⟩], [⟨2, 2⟩], [⟨3, 3⟩]], ⟨640, 480⟩, 0, 99, false, 7⟩
        ⟨some ⟨⟨640, 480⟩, true, [⟨4, 4⟩]⟩, 0, 0, -1⟩).state.mode = CalibState.DETECTION ∧
    (step (⟨true, [], 4, 1000, 1000000, true⟩ : LoopConfig Int) (fun _ _ => false)
        ⟨CalibState.CAPTURING, [[⟨1, 1⟩], [⟨2, 2⟩], [⟨3, 3⟩]], ⟨640, 480⟩, 0, 99, false, 7⟩
        ⟨some ⟨⟨640, 480⟩, true, [⟨4, 4⟩]⟩, 0, 0, -1⟩).state.imagePoints
      = (beforeCheck (⟨true, [], 4, 1000, 1000000, true⟩ : LoopConfig Int)
          ⟨CalibState.CAPTURING, [[⟨1, 1⟩], [⟨2, 2⟩], [⟨3, 3⟩]], ⟨640, 480⟩, 0, 99, false, 7⟩
          ⟨some ⟨⟨640, 480⟩, true, [⟨4, 4⟩]⟩, 0, 0, -1⟩
          ⟨⟨640, 480⟩, true, [⟨4, 4⟩]⟩).imagePoints ∧
    (step (⟨true, [], 4, 1000, 1000000, true⟩ : LoopConfig Int) (fun _ _ => false)
        ⟨CalibState.CAPTURING, [[⟨1, 1⟩], [⟨2, 2⟩], [⟨3, 3⟩]], ⟨640, 480⟩, 0, 99, false, 7⟩
        ⟨some ⟨⟨640, 480⟩, true, [⟨4, 4⟩]⟩, 0, 0, -1⟩).calls
      = [(beforeCheck (⟨true, [], 4, 1000, 1000000, true⟩ : LoopConfig Int)
          ⟨CalibState.CAPTURING, [[⟨1, 1⟩], [⟨2, 2⟩], [⟨3, 3⟩]], ⟨640, 480⟩, 0, 99, false, 7⟩
          ⟨some ⟨⟨640, 480⟩, true, [⟨4, 4⟩]⟩, 0, 0, -1⟩
          ⟨⟨640, 480⟩, true, [⟨4, 4⟩]⟩).imagePoints] :=
  failure_resets_mode_keeps_views
    (⟨true, [], 4, 1000, 1000000, true⟩ : LoopConfig Int) (fun _ _ => false)
    ⟨CalibState.CAPTURING, [[⟨1, 1⟩], [⟨2, 2⟩], [⟨3, 3⟩]], ⟨640, 480⟩, 0, 99, false, 7⟩
    ⟨some ⟨⟨640, 480⟩, true, [⟨4, 4⟩]⟩, 0, 0, -1⟩
    ⟨⟨640, 480⟩, true, [⟨4, 4⟩]⟩ rfl (by decide) (by decide) (by decide) rfl

theorem start_on_device {α : Type} (cfg : LoopConfig α)
    (runner : List (View α) → Size → Bool) (s : LoopState α) (env : StepEnv α)
    (view : Frame α)
    (hview : acquire cfg s env = some view)
    (hkey : env.waitKey % 256 = KEY_g)
    (hopen : cfg.captureOpened = true) (hn : 0 < cfg.nframes) :
    (step cfg runner s env).state.mode = CalibState.CAPTURING ∧
    (step cfg runner s env).state.imagePoints = [] := by
  have hesc : env.waitKey % 256 ≠ KEY_ESC := by rw [hkey]; decide
  have hg : (afterWaitKey cfg s env view).key = KEY_g := by
    rw [(afterWaitKey_fields cfg s env view).2.2.1, hkey]
  rw [step_of_frame cfg runner s env view hview hesc]
  have h := handleKey_restart cfg (afterWaitKey cfg s env view) hopen hg
  have hn2 : ¬ cfg.nframes ≤ 0 := by omega
  simp [checkCalibrate, beforeCheck, h.1, h.2, hn2]

/-! ## The acquisition loop: runs -/

theorem runLoop_cons {α : Type} (cfg : LoopConfig α)
    (runner : List (View α) → Size → Bool) (s : LoopState α) (env : StepEnv α)
    (envs : List (StepEnv α)) :
    runLoop cfg runner s (env :: envs) =
      if (step cfg runner s env).halted then step cfg runner s env
      else ⟨(runLoop cfg runner (step cfg runner s env).state envs).state,
            (step cfg runner s env).calls
              ++ (runLoop cfg runner (step cfg runner s env).state envs).calls,
            (runLoop cfg runner (step cfg runner s env).state envs).halted⟩ := by
  simp only [runLoop]

theorem detectedViews_append {α : Type} (l : List (Frame α)) (f : Frame α) :
    detectedViews (l ++ [f]) =
      if f.found = true then detectedViews l ++ [f.pointbuf] else detectedViews l := by
  unfold detectedViews
  by_cases h : f.found = true <;> simp [List.filter_append, List.filter_cons, h]

theorem detectedViews_length_le {α : Type} (l : List (Frame α)) :
    (detectedViews l).length ≤ l.length := by
  unfold detectedViews
  rw [List.length_map]
  exact List.length_filter_le _ l

theorem detectedViews_length_eq {α : Type} (l : List (Frame α))
    (h : (detectedViews l).length = l.length) (hl : l ≠ []) : detectedViews l ≠ [] := by
  intro h0
  rw [h0] at h
  exact hl (List.length_eq_zero.mp h.symm)

theorem list_run_from {α : Type} (runner : List (View α) → Size → Bool)
    (cfg : LoopConfig α) (done rest : List (Frame α))
    (hclosed : cfg.captureOpened = false)
    (hlist : cfg.imageList = (done ++ rest).map some)
    (hn : cfg.nframes = (done ++ rest).length)
    (hne : done ++ rest ≠ [])
    (s : LoopState α) (envs : List (StepEnv α))
    (hmode : s.mode = CalibState.CAPTURING)
    (hi : s.i = done.length)
    (hpts : s.imagePoints = detectedViews done)
    (hkeys : ∀ e ∈ envs, e.waitKey % 256 ≠ KEY_ESC)
    (hfuel : rest.length + 1 ≤ envs.length) :
    (runLoop cfg runner s envs).halted = true ∧
    (runLoop cfg runner s envs).calls =
      if (detectedViews (done ++ rest)).isEmpty then []
      else [detectedViews (done ++ rest)] := by
  induction rest generalizing done s envs with
  | nil =>
    cases envs with
    | nil => simp at hfuel
    | cons e es =>
      have hacq : acquire cfg s e = none := by
        simp [acquire, hclosed, hlist, hi]
      rw [runLoop_cons]
      simp only [step, hacq, if_true, hpts, List.append_nil]
      by_cases h0 : detectedViews done = []
      · simp [h0]
      · have : 0 < (detectedViews done).length := List.length_pos.mpr h0
        simp [h0, this]
  | cons f rest ih =>
    cases envs with
    | nil => simp at hfuel
    | cons e es =>
      have hget : cfg.imageList[s.i]? = some (some f) := by
        rw [hlist, hi, List.getElem?_map, List.getElem?_append_right (le_refl _)]
        simp
      have hlen : s.i < cfg.imageList.length := by
        rw [hlist, hi]; simp
      have hacq : acquire cfg s e = some f := by
        simp [acquire, hclosed, hlen, hget]
      have hesc : e.waitKey % 256 ≠ KEY_ESC := hkeys e (List.mem_cons_self _ _)
      have hf := afterWaitKey_fields cfg s e f
      have hk := handleKey_keep cfg (afterWaitKey cfg s e f) (Or.inl hclosed)
      have hkf := handleKey_fields cfg (afterWaitKey cfg s e f)
      have hbmode : (beforeCheck cfg s e f).mode = CalibState.CAPTURING := by
        unfold beforeCheck; rw [hk.1, hf.1, hmode]
      have hbpts : (beforeCheck cfg s e f).imagePoints = detectedViews (done ++ [f]) := by
        unfold beforeCheck
        rw [hk.2, hf.2.2.2, captureView_imagePoints, detectedViews_append, hpts]
        simp [hmode, hclosed]
      have hbi : (beforeCheck cfg s e f).i = done.length := by
        unfold beforeCheck; rw [hkf.2.1, hf.2.1, hi]
      have hsplit : done ++ f :: rest = (done ++ [f]) ++ rest := by simp
      rw [hsplit] at hlist hn ⊢
      rw [runLoop_cons, step_of_frame cfg runner s e f hacq hesc]
      by_cases hreach : cfg.nframes ≤ (beforeCheck cfg s e f).imagePoints.length
      · have hlen := detectedViews_length_le (done ++ [f])
        rw [hbpts, hn] at hreach
        simp only [List.length_append, List.length_cons, List.length_singleton,
          List.length_nil] at hreach hlen
        have hrest : rest = [] := List.length_eq_zero.mp (by omega)
        subst hrest
        have hfull : (detectedViews (done ++ [f])).length = (done ++ [f]).length := by
          simp only [List.length_append, List.length_singleton]; omega
        have hnz := detectedViews_length_eq (done ++ [f]) hfull (by simp)
        have hc : (beforeCheck cfg s e f).mode = CalibState.CAPTURING ∧
            cfg.nframes ≤ (beforeCheck cfg s e f).imagePoints.length := by
          refine ⟨hbmode, ?_⟩
          rw [hbpts, hn]
          simp only [List.length_append, List.length_cons, List.length_singleton,
            List.length_nil]
          omega
        have hnz2 : (detectedViews (done ++ [f])).isEmpty = false := by
          cases hd : detectedViews (done ++ [f]) with
          | nil => exact absurd hd hnz
          | cons _ _ => rfl
        have hr := checkCalibrate_reached cfg runner _ hc
        have hh : (checkCalibrate cfg runner (beforeCheck cfg s e f)).halted = true := by
          rw [hr.2.1, hclosed]; rfl
        rw [if_pos hh]
        refine ⟨hh, ?_⟩
        rw [hr.1, hbpts]
        simp [hnz2]
      · have hidle : ¬ ((beforeCheck cfg s e f).mode = CalibState.CAPTURING ∧
            cfg.nframes ≤ (beforeCheck cfg s e f).imagePoints.length) :=
          fun h => hreach h.2
        rw [checkCalibrate_idle cfg runner _ hidle]
        simp only [Bool.false_eq_true, if_false, List.nil_append]
        have hrec := ih (done ++ [f]) hlist hn (by simp)
          { beforeCheck cfg s e f with i := (beforeCheck cfg s e f).i + 1 } es
          hbmode (by simp [hbi]) hbpts
          (fun e2 he2 => hkeys e2 (List.mem_cons_of_mem _ he2))
          (by simp only [List.length_cons] at hfuel; omega)
        exact hrec

/-- C7: `main` is started on an image list of `n ≥ 1` entries that all load
and the ESC key is never pressed.  Then the loop is entered with target count
`n`; within `n + 1` passes it ends; if some image shows the board, `runAndSave`
has been called exactly once, with the point sets of exactly the images that
show the board, in list order; if none does, it has not been called. -/
theorem image_list_run {α : Type} (a : Startup α) (imgs : List (Frame α))
    (runner : List (View α) → Size → Bool) (envs : List (StepEnv α))
    (hin : a.hasInput = true) (hnv : a.videofile = false)
    (hlist : a.readStringList = some (imgs.map some))
    (hn : 1 ≤ imgs.length)
    (hkeys : ∀ e ∈ envs, e.waitKey % 256 ≠ KEY_ESC)
    (hfuel : imgs.length + 1 ≤ envs.length) :
    ∃ cfg s, startup a = .ok (cfg, s) ∧ cfg.nframes = imgs.length ∧
      (runLoop cfg runner s envs).halted = true ∧
      (runLoop cfg runner s envs).calls =
        if (detectedViews imgs).isEmpty then [] else [detectedViews imgs] := by
  have hne : imgs ≠ [] := by
    intro h; rw [h] at hn; simp at hn
  have hne2 : imgs.map some ≠ [] := by simpa using hne
  refine ⟨⟨false, imgs.map some, imgs.length, a.delay, a.clocksPerSec, a.manualTrigger⟩,
    ⟨CalibState.CAPTURING, [], ⟨0, 0⟩, 0, a.key, false, 0⟩, ?_, rfl, ?_⟩
  · simp [startup, hin, hnv, hlist, hne]
  · have h := list_run_from runner
      ⟨false, imgs.map some, imgs.length, a.delay, a.clocksPerSec, a.manualTrigger⟩
      [] imgs rfl rfl rfl (by simpa using hne)
      ⟨CalibState.CAPTURING, [], ⟨0, 0⟩, 0, a.key, false, 0⟩ envs rfl rfl rfl hkeys hfuel
    simpa using h

/-- Witness for C7: three images of which the first and the third show the
board, four passes without a key: one call, with the two detected views. -/
theorem image_list_run_witness :
    (1 ≤ listImages.length ∧ listImages.length + 1 ≤ (List.replicate 4 (cameraPass none 0 (-1))).length) ∧
    startup listStartup
      = .ok (listConfig, ⟨CalibState.CAPTURING, [], ⟨0, 0⟩, 0, 0, false, 0⟩) ∧
    (runLoop listConfig (fun _ _ => true) ⟨CalibState.CAPTURING, [], ⟨0, 0⟩, 0, 0, false, 0⟩
      (List.replicate 4 (cameraPass none 0 (-1)))).halted = true ∧
    (runLoop listConfig (fun _ _ => true) ⟨CalibState.CAPTURING, [], ⟨0, 0⟩, 0, 0, false, 0⟩
      (List.replicate 4 (cameraPass none 0 (-1)))).calls = [[[⟨1, 1⟩], [⟨3, 3⟩]]] := by
  obtain ⟨cfg, s, h1, _, h3, h4⟩ := image_list_run listStartup listImages (fun _ _ => true)
    (List.replicate 4 (cameraPass none 0 (-1))) rfl rfl rfl (by decide)
    (by intro e he; rw [List.eq_of_mem_replicate he]; decide) (by decide)
  have h0 : startup listStartup
      = .ok (listConfig, ⟨CalibState.CAPTURING, [], ⟨0, 0⟩, 0, 0, false, 0⟩) := rfl
  rw [h0] at h1
  injection h1 with h1
  injection h1 with hc hs
  subst hc
  subst hs
  exact ⟨⟨by decide, by decide⟩, h0, h3, h4⟩

theorem beforeCheck_keep {α : Type} (cfg : LoopConfig α) (s : LoopState α)
    (env : StepEnv α) (view : Frame α)
    (hg : cfg.captureOpened = false ∨ env.waitKey % 256 ≠ KEY_g) :
    (beforeCheck cfg s env view).mode = s.mode ∧
    (beforeCheck cfg s env view).imagePoints = (captureView cfg s env view).imagePoints := by
  have hf := afterWaitKey_fields cfg s env view
  have hg2 : cfg.captureOpened = false ∨ (afterWaitKey cfg s env view).key ≠ KEY_g := by
    rw [hf.2.2.1]; exact hg
  have hk := handleKey_keep cfg (afterWaitKey cfg s env view) hg2
  unfold beforeCheck
  exact ⟨by rw [hk.1, hf.1], by rw [hk.2, hf.2.2.2]⟩

theorem runLoop_append {α : Type} (cfg : LoopConfig α)
    (runner : List (View α) → Size → Bool) (s : LoopState α)
    (envs more : List (StepEnv α))
    (h : (runLoop cfg runner s envs).halted = false) :
    (runLoop cfg runner s (envs ++ more)).calls =
      (runLoop cfg runner s envs).calls
        ++ (runLoop cfg runner (runLoop cfg runner s envs).state more).calls := by
  induction envs generalizing s with
  | nil => simp [runLoop]
  | cons e es ih =>
    rw [runLoop_cons] at h ⊢
    rw [List.cons_append, runLoop_cons]
    by_cases hh : (step cfg runner s e).halted = true
    · rw [if_pos hh] at h
      rw [hh] at h
      exact Bool.noConfusion h
    · rw [if_neg hh] at h ⊢
      rw [if_neg hh]
      simp only at h ⊢
      rw [ih _ h, List.append_assoc]

theorem idle_run {α : Type} (cfg : LoopConfig α)
    (runner : List (View α) → Size → Bool) (s : LoopState α) (envs : List (StepEnv α))
    (hopen : cfg.captureOpened = true)
    (hmode : s.mode ≠ CalibState.CAPTURING)
    (hkeys : ∀ e ∈ envs, e.waitKey % 256 ≠ KEY_ESC)
    (hframes : ∀ e ∈ envs, e.view.isSome = true ∧ e.waitKey % 256 ≠ KEY_g) :
    (runLoop cfg runner s envs).calls = [] ∧
    (runLoop cfg runner s envs).state.imagePoints = s.imagePoints ∧
    (runLoop cfg runner s envs).halted = false := by
  induction envs generalizing s with
  | nil => simp [runLoop]
  | cons e es ih =>
    have he := hframes e (List.mem_cons_self _ _)
    obtain ⟨view, hv⟩ := Option.isSome_iff_exists.mp he.1
    have hacq : acquire cfg s e = some view := by simp [acquire, hopen, hv]
    have hesc := hkeys e (List.mem_cons_self _ _)
    have hb := beforeCheck_keep cfg s e view (Or.inr he.2)
    have hcap : (captureView cfg s e view).imagePoints = s.imagePoints := by
      rw [captureView_imagePoints]; simp [hmode]
    have hidle : ¬ ((beforeCheck cfg s e view).mode = CalibState.CAPTURING ∧
        cfg.nframes ≤ (beforeCheck cfg s e view).imagePoints.length) := by
      rw [hb.1]; exact fun h => hmode h.1
    rw [runLoop_cons, step_of_frame cfg runner s e view hacq hesc,
      checkCalibrate_idle cfg runner _ hidle]
    simp only [Bool.false_eq_true, if_false, List.nil_append]
    have hrec := ih { beforeCheck cfg s e view with i := (beforeCheck cfg s e view).i + 1 }
      (by show (beforeCheck cfg s e view).mode ≠ CalibState.CAPTURING; rw [hb.1]; exact hmode)
      (fun e2 he2 => hkeys e2 (List.mem_cons_of_mem _ he2))
      (fun e2 he2 => hframes e2 (List.mem_cons_of_mem _ he2))
    refine ⟨hrec.1, ?_, hrec.2.2⟩
    rw [hrec.2.1]
    show (beforeCheck cfg s e view).imagePoints = s.imagePoints
    rw [hb.2, hcap]

theorem session_run {α : Type} (cfg : LoopConfig α)
    (runner : List (View α) → Size → Bool) (s : LoopState α) (envs : List (StepEnv α))
    (hmode : s.mode = CalibState.CAPTURING)
    (hlt : s.imagePoints.length < cfg.nframes)
    (hkeys : ∀ e ∈ envs, e.waitKey % 256 ≠ KEY_ESC)
    (hframes : cfg.captureOpened = true →
      ∀ e ∈ envs, e.view.isSome = true ∧ e.waitKey % 256 ≠ KEY_g) :
    (runLoop cfg runner s envs).calls.length ≤ 1 ∧
    (cfg.nframes ≤ (runLoop cfg runner s envs).state.imagePoints.length →
      (runLoop cfg runner s envs).calls = [(runLoop cfg runner s envs).state.imagePoints]) ∧
    (cfg.captureOpened = true → (runLoop cfg runner s envs).halted = false) ∧
    (cfg.captureOpened = false →
      cfg.nframes ≤ (runLoop cfg runner s envs).state.imagePoints.length →
      (runLoop cfg runner s envs).halted = true) := by
  induction envs generalizing s with
  | nil =>
    refine ⟨by simp [runLoop], ?_, fun _ => rfl, ?_⟩
    · intro h
      simp only [runLoop] at h
      omega
    · intro _ h
      simp only [runLoop] at h
      omega
  | cons e es ih =>
    have hesc := hkeys e (List.mem_cons_self _ _)
    have hkeys2 : ∀ e2 ∈ es, e2.waitKey % 256 ≠ KEY_ESC :=
      fun e2 he2 => hkeys e2 (List.mem_cons_of_mem _ he2)
    have hframes2 : cfg.captureOpened = true →
        ∀ e2 ∈ es, e2.view.isSome = true ∧ e2.waitKey % 256 ≠ KEY_g :=
      fun ho e2 he2 => hframes ho e2 (List.mem_cons_of_mem _ he2)
    rw [runLoop_cons]
    cases hacq : acquire cfg s e with
    | none =>
      have hclosed : cfg.captureOpened = false := by
        cases ho : cfg.captureOpened with
        | false => rfl
        | true =>
          have he := (hframes ho e (List.mem_cons_self _ _)).1
          simp [acquire, ho] at hacq
          rw [hacq] at he
          exact Bool.noConfusion he
      simp only [step, hacq, if_true]
      refine ⟨?_, ?_, ?_, ?_⟩
      · split_ifs <;> simp
      · intro h; omega
      · intro ho; rw [hclosed] at ho; exact Bool.noConfusion ho
      · intro _ h; omega
    | some view =>
      have hg : cfg.captureOpened = false ∨ e.waitKey % 256 ≠ KEY_g := by
        cases ho : cfg.captureOpened with
        | false => exact Or.inl rfl
        | true => exact Or.inr (hframes ho e (List.mem_cons_self _ _)).2
      have hb := beforeCheck_keep cfg s e view hg
      rw [step_of_frame cfg runner s e view hacq hesc]
      by_cases hreach : cfg.nframes ≤ (beforeCheck cfg s e view).imagePoints.length
      · have hc : (beforeCheck cfg s e view).mode = CalibState.CAPTURING ∧
            cfg.nframes ≤ (beforeCheck cfg s e view).imagePoints.length :=
          ⟨by rw [hb.1, hmode], hreach⟩
        have hr := checkCalibrate_reached cfg runner _ hc
        have hfld := checkCalibrate_fields cfg runner (beforeCheck cfg s e view)
        cases ho : cfg.captureOpened with
        | false =>
          have hh : (checkCalibrate cfg runner (beforeCheck cfg s e view)).halted = true := by
            rw [hr.2.1, ho]; rfl
          rw [if_pos hh]
          refine ⟨by rw [hr.1]; simp, fun _ => by rw [hr.1, hfld.1], ?_, fun _ _ => hh⟩
          intro h; exact Bool.noConfusion h
        | true =>
          have hh : ¬ (checkCalibrate cfg runner (beforeCheck cfg s e view)).halted = true := by
            rw [hr.2.1, ho]; simp
          rw [if_neg hh]
          have hid := idle_run cfg runner
            (checkCalibrate cfg runner (beforeCheck cfg s e view)).state es ho hr.2.2.1
            hkeys2 (hframes2 ho)
          simp only [hid.1, hid.2.1, hid.2.2, hr.1, hfld.1, List.append_nil,
            List.length_singleton, le_refl, true_and, implies_true, Bool.true_eq_false,
            false_implies, and_true]
      · have hidle : ¬ ((beforeCheck cfg s e view).mode = CalibState.CAPTURING ∧
            cfg.nframes ≤ (beforeCheck cfg s e view).imagePoints.length) :=
          fun h => hreach h.2
        rw [checkCalibrate_idle cfg runner _ hidle]
        simp only [Bool.false_eq_true, if_false, List.nil_append]
        exact ih { beforeCheck cfg s e view with i := (beforeCheck cfg s e view).i + 1 }
          (by show (beforeCheck cfg s e view).mode = CalibState.CAPTURING; rw [hb.1, hmode])
          (by show (beforeCheck cfg s e view).imagePoints.length < cfg.nframes; omega)
          hkeys2 hframes2

/-- Counterexample for C3: a video with the manual trigger and target 4.  The
key `g` is pressed once, four views are kept, `runAndSave` is called when the
fourth is kept, and it is called a second time with the same views when the
video then delivers a frame without data. -/
theorem second_call_on_empty_frame_example :
    (runLoop (cameraConfig true) (fun _ _ => true)
        ⟨CalibState.DETECTION, [], ⟨0, 0⟩, 0, 0, false, 0⟩
        (cameraPass (some (frameFound 9)) 0 103 :: sessionPasses
          ++ [cameraPass none 0 (-1)])).calls = [sessionViews, sessionViews] ∧
    (List.map (fun e => decide (e.waitKey % 256 = KEY_g))
        (cameraPass (some (frameFound 9)) 0 103 :: sessionPasses
          ++ [cameraPass none 0 (-1)])).count true = 1 := by
  decide

/-- C3 (amended): a capture session starts capturing with fewer views than the
target; ESC is not pressed; on a capture device every pass of the session gets
a frame and the key `g` is not pressed.  Then `runAndSave` is called at most
once during these passes, and if the view count reaches the target it is called
exactly once, with the views held; on an image list the loop has then ended.
On a capture device, a frame without data that follows a session that reached
the target makes the loop call `runAndSave` once more with the same views. -/
theorem capture_session_calls {α : Type} (cfg : LoopConfig α)
    (runner : List (View α) → Size → Bool) (s : LoopState α)
    (envs : List (StepEnv α)) (last : StepEnv α)
    (hmode : s.mode = CalibState.CAPTURING)
    (hlt : s.imagePoints.length < cfg.nframes)
    (hkeys : ∀ e ∈ envs, e.waitKey % 256 ≠ KEY_ESC)
    (hframes : cfg.captureOpened = true →
      ∀ e ∈ envs, e.view.isSome = true ∧ e.waitKey % 256 ≠ KEY_g)
    (hlast : last.view = none) :
    (runLoop cfg runner s envs).calls.length ≤ 1 ∧
    (cfg.nframes ≤ (runLoop cfg runner s envs).state.imagePoints.length →
      (runLoop cfg runner s envs).calls = [(runLoop cfg runner s envs).state.imagePoints]) ∧
    (cfg.captureOpened = false →
      cfg.nframes ≤ (runLoop cfg runner s envs).state.imagePoints.length →
      (runLoop cfg runner s envs).halted = true) ∧
    (cfg.captureOpened = true →
      cfg.nframes ≤ (runLoop cfg runner s envs).state.imagePoints.length →
      (runLoop cfg runner s (envs ++ [last])).calls =
        [(runLoop cfg runner s envs).state.imagePoints,
         (runLoop cfg runner s envs).state.imagePoints]) := by
  have h := session_run cfg runner s envs hmode hlt hkeys hframes
  refine ⟨h.1, h.2.1, h.2.2.2, ?_⟩
  intro ho hreach
  have hacq : acquire cfg (runLoop cfg runner s envs).state last = none := by
    simp [acquire, ho, hlast]
  have hpos : 0 < (runLoop cfg runner s envs).state.imagePoints.length := by omega
  rw [runLoop_append cfg runner s envs [last] (h.2.2.1 ho), h.2.1 hreach, runLoop_cons]
  simp [step, hacq, hpos]

/-- Witness for C3 (amended): the session `sessionPasses` on a camera, followed
by a frame without data; and an image list whose three images all show the
board. -/
theorem capture_session_calls_witness :
    ((⟨CalibState.CAPTURING, [], ⟨0, 0⟩, 0, 103, false, 1⟩ : LoopState Int).imagePoints.length
        < (cameraConfig true).nframes ∧
      (cameraConfig true).captureOpened = true ∧
      (cameraPass none 0 (-1)).view = none) ∧
    (runLoop (cameraConfig true) (fun _ _ => true)
        ⟨CalibState.CAPTURING, [], ⟨0, 0⟩, 0, 103, false, 1⟩ sessionPasses).calls.length ≤ 1 ∧
    (runLoop (cameraConfig true) (fun _ _ => true)
        ⟨CalibState.CAPTURING, [], ⟨0, 0⟩, 0, 103, false, 1⟩ sessionPasses).calls
      = [sessionViews] ∧
    (runLoop (cameraConfig true) (fun _ _ => true)
        ⟨CalibState.CAPTURING, [], ⟨0, 0⟩, 0, 103, false, 1⟩
        (sessionPasses ++ [cameraPass none 0 (-1)])).calls
      = [sessionViews, sessionViews] ∧
    (runLoop (⟨false, List.replicate 3 (some (frameFound 5)), 3, 1000, 1000000, false⟩ :
          LoopConfig Int) (fun _ _ => true)
        ⟨CalibState.CAPTURING, [], ⟨0, 0⟩, 0, 0, false, 0⟩ sessionPasses).halted = true := by
  have h := capture_session_calls (cameraConfig true) (fun _ _ => true)
    ⟨CalibState.CAPTURING, [], ⟨0, 0⟩, 0, 103, false, 1⟩ sessionPasses
    (cameraPass none 0 (-1)) rfl (by decide) (by decide) (fun _ => by decide) rfl
  have hl := capture_session_calls
    (⟨false, List.replicate 3 (some (frameFound 5)), 3, 1000, 1000000, false⟩ : LoopConfig Int)
    (fun _ _ => true) ⟨CalibState.CAPTURING, [], ⟨0, 0⟩, 0, 0, false, 0⟩ sessionPasses
    (cameraPass none 0 (-1)) rfl (by decide) (by decide)
    (fun h => Bool.noConfusion h) rfl
  exact ⟨⟨by decide, rfl, rfl⟩, h.1, h.2.1 (by decide), h.2.2.2 rfl (by decide),
    hl.2.2.1 rfl (by decide)⟩

theorem quiet_run {α : Type} (cfg : LoopConfig α)
    (runner : List (View α) → Size → Bool) (s : LoopState α) (mid : List (StepEnv α))
    (hopen : cfg.captureOpened = true)
    (hmode : s.mode = CalibState.CAPTURING)
    (hlt : s.imagePoints.length < cfg.nframes)
    (hmid : ∀ e ∈ mid, e.waitKey % 256 ≠ KEY_ESC ∧ e.waitKey % 256 ≠ KEY_g ∧
      ∃ f, e.view = some f ∧ f.found = false) :
    (runLoop cfg runner s mid).state.imagePoints = s.imagePoints ∧
    (runLoop cfg runner s mid).state.prevTimestamp = s.prevTimestamp ∧
    (runLoop cfg runner s mid).state.mode = CalibState.CAPTURING := by
  induction mid generalizing s with
  | nil => exact ⟨rfl, rfl, hmode⟩
  | cons e es ih =>
    obtain ⟨hesc, hg, f, hv, hf⟩ := hmid e (List.mem_cons_self _ _)
    have hacq : acquire cfg s e = some f := by simp [acquire, hopen, hv]
    have hb := beforeCheck_keep cfg s e f (Or.inr hg)
    have hcap : (captureView cfg s e f).imagePoints = s.imagePoints := by
      rw [captureView_imagePoints]; simp [hf]
    have hprev : (beforeCheck cfg s e f).prevTimestamp = s.prevTimestamp := by
      unfold beforeCheck
      rw [(handleKey_fields cfg (afterWaitKey cfg s e f)).2.2.2]
      show (captureView cfg s e f).prevTimestamp = s.prevTimestamp
      rw [captureView_prevTimestamp]; simp [hf]
    have hidle : ¬ ((beforeCheck cfg s e f).mode = CalibState.CAPTURING ∧
        cfg.nframes ≤ (beforeCheck cfg s e f).imagePoints.length) := by
      rw [hb.2, hcap]; intro h; omega
    rw [runLoop_cons, step_of_frame cfg runner s e f hacq hesc,
      checkCalibrate_idle cfg runner _ hidle]
    simp only [Bool.false_eq_true, if_false]
    have hrec := ih { beforeCheck cfg s e f with i := (beforeCheck cfg s e f).i + 1 }
      (by show (beforeCheck cfg s e f).mode = CalibState.CAPTURING; rw [hb.1, hmode])
      (by show (beforeCheck cfg s e f).imagePoints.length < cfg.nframes
          rw [hb.2, hcap]; exact hlt)
      (fun e2 he2 => hmid e2 (List.mem_cons_of_mem _ he2))
    refine ⟨?_, ?_, hrec.2.2⟩
    · rw [hrec.1]
      show (beforeCheck cfg s e f).imagePoints = s.imagePoints
      rw [hb.2, hcap]
    · rw [hrec.2.1]
      exact hprev

/-- C6: on a capture device, capturing, with the automatic trigger and a
minimum delay of `delayTicks cfg` clock ticks.  A pass captures a detected view
and reads the clock `t0 = e1.clockCapture`.  After any number of passes `mid`
in which no board is found, a pass detects a board and reads the clock
`t1 = e2.clockTrigger`: the view list is left as it is when `t1 - t0` is less
than the delay (the two detections give one captured view), and the view is
appended when `t1 - t0` is more than the delay (both are captured). -/
theorem auto_trigger_delay {α : Type} (cfg : LoopConfig α)
    (runner : List (View α) → Size → Bool) (s : LoopState α) (e1 e2 : StepEnv α)
    (mid : List (StepEnv α)) (f1 f2 : Frame α)
    (hopen : cfg.captureOpened = true) (hauto : cfg.manualTrigger = false)
    (hmode : s.mode = CalibState.CAPTURING)
    (hv1 : e1.view = some f1) (hf1 : f1.found = true)
    (htrig1 : trigger cfg s e1 = true)
    (hk1e : e1.waitKey % 256 ≠ KEY_ESC) (hk1g : e1.waitKey % 256 ≠ KEY_g)
    (hroom : s.imagePoints.length + 1 < cfg.nframes)
    (hmid : ∀ e ∈ mid, e.waitKey % 256 ≠ KEY_ESC ∧ e.waitKey % 256 ≠ KEY_g ∧
      ∃ f, e.view = some f ∧ f.found = false)
    (hv2 : e2.view = some f2) (hf2 : f2.found = true)
    (hk2g : e2.waitKey % 256 ≠ KEY_g) :
    (step cfg runner s e1).state.imagePoints = s.imagePoints ++ [f1.pointbuf] ∧
    (step cfg runner s e1).state.prevTimestamp = e1.clockCapture ∧
    (((e2.clockTrigger - e1.clockCapture : Int) : ℚ) < delayTicks cfg →
      (step cfg runner (runLoop cfg runner (step cfg runner s e1).state mid).state
        e2).state.imagePoints = s.imagePoints ++ [f1.pointbuf]) ∧
    (((e2.clockTrigger - e1.clockCapture : Int) : ℚ) > delayTicks cfg →
      (step cfg runner (runLoop cfg runner (step cfg runner s e1).state mid).state
        e2).state.imagePoints = s.imagePoints ++ [f1.pointbuf] ++ [f2.pointbuf]) := by
  have ha1 : acquire cfg s e1 = some f1 := by simp [acquire, hopen, hv1]
  have hs1 := step_imagePoints cfg runner s e1 f1 ha1 (Or.inr hk1g)
  have hc1 : (captureView cfg s e1 f1).imagePoints = s.imagePoints ++ [f1.pointbuf] := by
    rw [captureView_imagePoints]; simp [hmode, hf1, htrig1]
  have hp1 : (captureView cfg s e1 f1).prevTimestamp = e1.clockCapture := by
    rw [captureView_prevTimestamp]; simp [hmode, hf1, htrig1]
  have hpts1 : (step cfg runner s e1).state.imagePoints = s.imagePoints ++ [f1.pointbuf] := by
    rw [hs1.1, hc1]
  have hprev1 : (step cfg runner s e1).state.prevTimestamp = e1.clockCapture := by
    rw [hs1.2, hp1]
  have hmode1 : (step cfg runner s e1).state.mode = CalibState.CAPTURING := by
    have hb := beforeCheck_keep cfg s e1 f1 (Or.inr hk1g)
    have hidle : ¬ ((beforeCheck cfg s e1 f1).mode = CalibState.CAPTURING ∧
        cfg.nframes ≤ (beforeCheck cfg s e1 f1).imagePoints.length) := by
      rw [hb.2, hc1]
      simp only [List.length_append, List.length_singleton]
      omega
    rw [step_of_frame cfg runner s e1 f1 ha1 hk1e, checkCalibrate_idle cfg runner _ hidle]
    show (beforeCheck cfg s e1 f1).mode = CalibState.CAPTURING
    rw [hb.1, hmode]
  have hq := quiet_run cfg runner (step cfg runner s e1).state mid hopen hmode1
    (by rw [hpts1]; simp only [List.length_append, List.length_singleton]; omega) hmid
  have hpts : (runLoop cfg runner (step cfg runner s e1).state mid).state.imagePoints
      = s.imagePoints ++ [f1.pointbuf] := by rw [hq.1, hpts1]
  have hprev : (runLoop cfg runner (step cfg runner s e1).state mid).state.prevTimestamp
      = e1.clockCapture := by rw [hq.2.1, hprev1]
  have ha2 : acquire cfg (runLoop cfg runner (step cfg runner s e1).state mid).state e2
      = some f2 := by
    simp [acquire, hopen, hv2]
  have hs2 := step_imagePoints cfg runner
    (runLoop cfg runner (step cfg runner s e1).state mid).state e2 f2 ha2 (Or.inr hk2g)
  have htr : trigger cfg (runLoop cfg runner (step cfg runner s e1).state mid).state e2
      = decide (((e2.clockTrigger - e1.clockCapture : Int) : ℚ) > delayTicks cfg) := by
    simp only [trigger, hauto, hprev, Bool.false_eq_true, if_false]
  refine ⟨hpts1, hprev1, ?_, ?_⟩
  · intro hlt
    have hn : ¬ (((e2.clockTrigger - e1.clockCapture : Int) : ℚ) > delayTicks cfg) :=
      not_lt.mpr hlt.le
    rw [hs2.1, captureView_imagePoints, hpts, htr, decide_eq_false hn]
    simp [hopen]
  · intro hgt
    rw [hs2.1, captureView_imagePoints, hpts, htr, decide_eq_true hgt]
    simp [hq.2.2, hf2]

/-- Witness for C6: a camera with a delay of one million ticks captures at
tick 2000000 and then sees a frame without a board; a board detected at tick
2400000 is not kept, a board detected at tick 3500000 is kept. -/
theorem auto_trigger_delay_witness :
    (trigger (cameraConfig false) ⟨CalibState.CAPTURING, [], ⟨640, 480⟩, 0, 255, false, 3⟩
        (cameraPass (some (frameFound 1)) 2000000 (-1)) = true ∧
      (((2400000 - 2000000 : Int) : ℚ) < delayTicks (cameraConfig false)) ∧
      (((3500000 - 2000000 : Int) : ℚ) > delayTicks (cameraConfig false))) ∧
    (step (cameraConfig false) (fun _ _ => true)
        (runLoop (cameraConfig false) (fun _ _ => true)
          (step (cameraConfig false) (fun _ _ => true)
            ⟨CalibState.CAPTURING, [], ⟨640, 480⟩, 0, 255, false, 3⟩
            (cameraPass (some (frameFound 1)) 2000000 (-1))).state
          [cameraPass (some frameMissed) 2200000 (-1)]).state
        (cameraPass (some (frameFound 2)) 2400000 (-1))).state.imagePoints
      = [] ++ [(frameFound 1).pointbuf] ∧
    (step (cameraConfig false) (fun _ _ => true)
        (runLoop (cameraConfig false) (fun _ _ => true)
          (step (cameraConfig false) (fun _ _ => true)
            ⟨CalibState.CAPTURING, [], ⟨640, 480⟩, 0, 255, false, 3⟩
            (cameraPass (some (frameFound 1)) 2000000 (-1))).state
          [cameraPass (some frameMissed) 2200000 (-1)]).state
        (cameraPass (some (frameFound 2)) 3500000 (-1))).state.imagePoints
      = [] ++ [(frameFound 1).pointbuf] ++ [(frameFound 2).pointbuf] := by
  have ht : trigger (cameraConfig false)
      ⟨CalibState.CAPTURING, [], ⟨640, 480⟩, 0, 255, false, 3⟩
      (cameraPass (some (frameFound 1)) 2000000 (-1)) = true := by
    norm_num [trigger, cameraConfig, cameraPass, delayTicks]
  have hlt : ((2400000 - 2000000 : Int) : ℚ) < delayTicks (cameraConfig false) := by
    norm_num [delayTicks, cameraConfig]
  have hgt : ((3500000 - 2000000 : Int) : ℚ) > delayTicks (cameraConfig false) := by
    norm_num [delayTicks, cameraConfig]
  have hmid : ∀ e ∈ [cameraPass (some frameMissed) 2200000 (-1)],
      e.waitKey % 256 ≠ KEY_ESC ∧ e.waitKey % 256 ≠ KEY_g ∧
        ∃ f, e.view = some f ∧ f.found = false := by
    intro e he
    rw [List.mem_singleton.mp he]
    exact ⟨by decide, by decide, frameMissed, rfl, rfl⟩
  exact ⟨⟨ht, hlt, hgt⟩,
    (auto_trigger_delay (cameraConfig false) (fun _ _ => true)
      ⟨CalibState.CAPTURING, [], ⟨640, 480⟩, 0, 255, false, 3⟩
      (cameraPass (some (frameFound 1)) 2000000 (-1))
      (cameraPass (some (frameFound 2)) 2400000 (-1))
      [cameraPass (some frameMissed) 2200000 (-1)]
      (frameFound 1) (frameFound 2) rfl rfl rfl rfl rfl ht (by decide) (by decide)
      (by decide) hmid rfl rfl (by decide)).2.2.1 hlt,
    (auto_trigger_delay (cameraConfig false) (fun _ _ => true)
      ⟨CalibState.CAPTURING, [], ⟨640, 480⟩, 0, 255, false, 3⟩
      (cameraPass (some (frameFound 1)) 2000000 (-1))
      (cameraPass (some (frameFound 2)) 3500000 (-1))
      [cameraPass (some frameMissed) 2200000 (-1)]
      (frameFound 1) (frameFound 2) rfl rfl rfl rfl rfl ht (by decide) (by decide)
      (by decide) hmid rfl rfl (by decide)).2.2.2 hgt⟩

/-! ## The flag word of the solver -/

theorem or_or_and_two_pow (f a b c : Nat) (hac : a ≠ c) (hbc : b ≠ c) :
    (f ||| 2 ^ a ||| 2 ^ b) &&& 2 ^ c = f &&& 2 ^ c := by
  apply Nat.eq_of_testBit_eq
  intro i
  simp only [Nat.testBit_and, Nat.testBit_or, Nat.testBit_two_pow]
  by_cases hi : c = i
  · subst hi
    simp [hac, hbc]
  · simp [hi]

theorem or_or_and_left (f a b : Nat) : (f ||| a ||| b) &&& a = a := by
  apply Nat.eq_of_testBit_eq
  intro i
  simp only [Nat.testBit_and, Nat.testBit_or]
  cases f.testBit i <;> cases a.testBit i <;> cases b.testBit i <;> rfl

theorem or_or_and_right (f a b : Nat) : (f ||| a ||| b) &&& b = b := by
  apply Nat.eq_of_testBit_eq
  intro i
  simp only [Nat.testBit_and, Nat.testBit_or]
  cases f.testBit i <;> cases a.testBit i <;> cases b.testBit i <;> rfl

/-- Counterexample for C8: with the caller's flags `0` the word handed to the
solver is `6144 = 2048 + 4096`; the bit of `CV_CALIB_FIX_K6` is not set. -/
theorem solverFlags_k6_not_set_example :
    solverFlags 0 = 6144 ∧ solverFlags 0 &&& CV_CALIB_FIX_K6 = 0 := by
  decide

/-- C8 (amended): for every flags value of the caller, the solver is called
with the word `solverFlags flags` and with no other; in it the bits of
`CV_CALIB_FIX_K4` (2048) and `CV_CALIB_FIX_K5` (4096) are set, and the bit of
`CV_CALIB_FIX_K6` (8192) is set exactly when the caller set it. -/
theorem solverFlags_fixes_k4_k5 {α : Type} [Field α] (ext : External α)
    (imagePoints : List (View α)) (imageSize boardSize : Size)
    (squareSize aspectRatio : α) (flags : Nat) (reprojErrs : List α) :
    runCalibration ext imagePoints imageSize boardSize squareSize aspectRatio flags reprojErrs
      = runCalibration
          { ext with calibrateCamera := fun o i sz c d _ =>
              ext.calibrateCamera o i sz c d (solverFlags flags) }
          imagePoints imageSize boardSize squareSize aspectRatio flags reprojErrs ∧
    solverFlags flags &&& CV_CALIB_FIX_K4 = CV_CALIB_FIX_K4 ∧
    solverFlags flags &&& CV_CALIB_FIX_K5 = CV_CALIB_FIX_K5 ∧
    solverFlags flags &&& CV_CALIB_FIX_K6 = flags &&& CV_CALIB_FIX_K6 := by
  refine ⟨rfl, or_or_and_left _ _ _, or_or_and_right _ _ _, ?_⟩
  exact or_or_and_two_pow flags 11 12 13 (by decide) (by decide)

/-! ## The companion reader -/

/-- Counterexample for C10: a document that opens and holds only an `nframes`
field.  The reader prints an empty 0 by 0 matrix, writes nothing to `cerr` and
exits with status 0. -/
theorem reader_missing_field_example :
    @readCalibrationMatrixMain Int
        (fun path => if path = "camera.yml" then some [Entry.field "nframes" (Value.int 3)]
          else none)
        ["readCalibrationMatrix", "camera.yml"]
      = ⟨[], [ReaderLine.matrixSize 0 0, ReaderLine.matrixElementSize 0,
              ReaderLine.cameraMatrix Mat.empty], some 0⟩ := by
  decide

/-- C10 (amended): when the path given on the command line opens as a document
without a `camera_matrix` field, the reader writes nothing to `cerr`, prints an
empty 0 by 0 matrix and exits with `EXIT_SUCCESS`; when the path cannot be
opened it reports the failure on `cerr` and exits with `EXIT_FAILURE`, which is
not zero. -/
theorem reader_exit_status {α : Type} (openStorage : String → Option (Document α))
    (program path : String) (more : List String) :
    (∀ fs, openStorage path = some fs → Document.lookup "camera_matrix" fs = none →
      readCalibrationMatrixMain openStorage (program :: path :: more)
        = ⟨[], [ReaderLine.matrixSize 0 0, ReaderLine.matrixElementSize 0,
                ReaderLine.cameraMatrix Mat.empty], some EXIT_SUCCESS⟩) ∧
    (openStorage path = none →
      readCalibrationMatrixMain openStorage (program :: path :: more)
        = ⟨[ReaderLine.failedToOpen path], [], some EXIT_FAILURE⟩ ∧
      EXIT_FAILURE ≠ 0) := by
  have hargc : ¬ (more.length + 1 + 1 < 2) := by omega
  constructor
  · intro fs hopen hmiss
    simp only [readCalibrationMatrixMain, List.length_cons, hargc, if_false, List.getD_cons_succ,
      List.getD_cons_zero, hopen, hmiss, readMat, Mat.empty]
  · intro hclosed
    refine ⟨?_, by decide⟩
    simp only [readCalibrationMatrixMain, List.length_cons, hargc, if_false,
      List.getD_cons_succ, List.getD_cons_zero, hclosed, List.nil_append]

/-- Witness for C10 (amended): a document with only an `nframes` field, and a
path that does not open. -/
theorem reader_exit_status_witness :
    @readCalibrationMatrixMain Int
        (fun path => if path = "camera.yml" then some [Entry.field "nframes" (Value.int 3)]
          else none)
        ["readCalibrationMatrix", "camera.yml"]
      = ⟨[], [ReaderLine.matrixSize 0 0, ReaderLine.matrixElementSize 0,
              ReaderLine.cameraMatrix Mat.empty], some EXIT_SUCCESS⟩ ∧
    (@readCalibrationMatrixMain Int
        (fun path => if path = "camera.yml" then some [Entry.field "nframes" (Value.int 3)]
          else none)
        ["readCalibrationMatrix", "absent.yml"]
      = ⟨[ReaderLine.failedToOpen "absent.yml"], [], some EXIT_FAILURE⟩ ∧
      EXIT_FAILURE ≠ 0) :=
  ⟨(reader_exit_status
      (fun path => if path = "camera.yml" then some [Entry.field "nframes" (Value.int 3)]
        else none)
      "readCalibrationMatrix" "camera.yml" []).1 [Entry.field "nframes" (Value.int 3)]
      (by decide) (by decide),
   (reader_exit_status
      (fun path => if path = "camera.yml" then some [Entry.field "nframes" (Value.int 3)]
        else none)
      "readCalibrationMatrix" "absent.yml" []).2 (by decide)⟩

/-! ## The persisted document -/

theorem reprojBody_length {α : Type} [Field α] (ext : External α)
    (objectPoints : List (List (Point3f α))) (imagePoints : List (View α))
    (rvecs tvecs : List (Mat α)) (cameraMatrix distCoeffs : Mat α)
    (acc acc1 : ReprojAcc α) (i : Nat)
    (h : reprojBody ext objectPoints imagePoints rvecs tvecs cameraMatrix distCoeffs acc i
      = .ok acc1) :
    acc1.perViewErrors.length = acc.perViewErrors.length := by
  simp only [reprojBody, bind, Except.bind, pure, Except.pure] at h
  split at h
  · exact Except.noConfusion h
  · split at h
    · exact Except.noConfusion h
    · split at h
      · exact Except.noConfusion h
      · split at h
        · exact Except.noConfusion h
        · split at h
          · exact Except.noConfusion h
          · split at h
            · exact Except.noConfusion h
            · injection h with h
              rw [← h]
              simp

theorem reprojFold_length {α : Type} [Field α] (ext : External α)
    (objectPoints : List (List (Point3f α))) (imagePoints : List (View α))
    (rvecs tvecs : List (Mat α)) (cameraMatrix distCoeffs : Mat α)
    (l : List Nat) (acc acc1 : ReprojAcc α)
    (h : l.foldlM
      (reprojBody ext objectPoints imagePoints rvecs tvecs cameraMatrix distCoeffs) acc
      = .ok acc1) :
    acc1.perViewErrors.length = acc.perViewErrors.length := by
  induction l generalizing acc with
  | nil =>
    simp only [List.foldlM_nil, pure, Except.pure] at h
    injection h with h
    rw [h]
  | cons a l ih =>
    simp only [List.foldlM_cons, bind, Except.bind] at h
    split at h
    · exact Except.noConfusion h
    · rename_i acc2 hbody
      rw [ih acc2 h]
      exact reprojBody_length ext objectPoints imagePoints rvecs tvecs cameraMatrix
        distCoeffs acc acc2 a hbody

theorem resizeWith_length {β : Type} (v : List β) (n : Nat) (x : β) :
    (resizeWith v n x).length = n := by
  simp only [resizeWith, List.length_append, List.length_take, List.length_replicate]
  omega

theorem computeReprojectionErrors_length {α : Type} [Field α] (ext : External α)
    (objectPoints : List (List (Point3f α))) (imagePoints : List (View α))
    (rvecs tvecs : List (Mat α)) (cameraMatrix distCoeffs : Mat α)
    (perViewErrors : List α) (avg : α) (errs : List α)
    (h : computeReprojectionErrors ext objectPoints imagePoints rvecs tvecs cameraMatrix
      distCoeffs perViewErrors = .ok (avg, errs)) :
    errs.length = objectPoints.length := by
  simp only [computeReprojectionErrors, bind, Except.bind, pure, Except.pure] at h
  split at h
  · exact Except.noConfusion h
  · rename_i acc hfold
    injection h with h
    injection h with _ h2
    rw [← h2, reprojFold_length ext objectPoints imagePoints rvecs tvecs cameraMatrix
      distCoeffs _ _ acc hfold]
    exact resizeWith_length _ _ _

theorem runCalibration_lengths {α : Type} [Field α] (ext : External α)
    (imagePoints : List (View α)) (imageSize boardSize : Size)
    (squareSize aspectRatio : α) (flags : Nat) (reprojErrs : List α)
    (r : CalibrationResult α)
    (h : runCalibration ext imagePoints imageSize boardSize squareSize aspectRatio flags
      reprojErrs = .ok r) :
    r.reprojErrs.length = imagePoints.length ∧
    ∃ o c d, r.rvecs = (ext.calibrateCamera o imagePoints imageSize c d
      (solverFlags flags)).rvecs := by
  simp only [runCalibration, bind, Except.bind, pure, Except.pure] at h
  split at h
  · exact Except.noConfusion h
  · rename_i res hres
    injection h with h
    rw [← h]
    obtain ⟨avg, errs⟩ := res
    refine ⟨?_, _, _, _, rfl⟩
    have := computeReprojectionErrors_length ext _ _ _ _ _ _ _ avg errs hres
    rw [resizeWith_length] at this
    exact this

theorem lookup_append_of_none {α : Type} (name : String) (a b : Document α)
    (h : Document.lookup name a = none) :
    Document.lookup name (a ++ b) = Document.lookup name b := by
  induction a with
  | nil => rfl
  | cons e a ih =>
    cases e with
    | field n v =>
      simp only [Document.lookup, List.cons_append] at h ⊢
      split_ifs at h ⊢ with hn
      exact ih h
    | comment t =>
      simp only [Document.lookup, List.cons_append] at h ⊢
      exact ih h

theorem lookup_append_of_some {α : Type} (name : String) (a b : Document α) (v : Value α)
    (h : Document.lookup name a = some v) :
    Document.lookup name (a ++ b) = some v := by
  induction a with
  | nil => simp [Document.lookup] at h
  | cons e a ih =>
    cases e with
    | field n w =>
      simp only [Document.lookup, List.cons_append] at h ⊢
      split_ifs at h ⊢ with hn
      · exact h
      · exact ih h
    | comment t =>
      simp only [Document.lookup, List.cons_append] at h ⊢
      exact ih h

theorem saveCameraParams_nframes {α : Type} (calibrationTime : String)
    (imageSize boardSize : Size) (squareSize aspectRatio : α) (flags : Nat)
    (cameraMatrix distCoeffs : Mat α) (rvecs tvecs : List (Mat α))
    (reprojErrs : List α) (imagePoints : List (View α)) (totalAvgErr : α)
    (doc : Document α)
    (h : saveCameraParams calibrationTime imageSize boardSize squareSize aspectRatio flags
      cameraMatrix distCoeffs rvecs tvecs reprojErrs imagePoints totalAvgErr = .ok doc) :
    Document.lookup "nframes" doc =
      if (!rvecs.isEmpty || !reprojErrs.isEmpty) = true then
        some (Value.int (max rvecs.length reprojErrs.length : Nat))
      else none := by
  have hpiece : ∀ (c : Prop) [Decidable c] (d : Document α),
      Document.lookup "nframes" d = none →
      Document.lookup "nframes" (if c then d else []) = none := by
    intro c _ d hd
    split_ifs
    · exact hd
    · rfl
  have h9 : Document.lookup "nframes"
      (match imagePoints with
        | [] => ([] : Document α)
        | first :: _ =>
          [Entry.field "image_points"
            (Value.mat ⟨imagePoints.length, first.length, 8,
              imagePoints.flatMap (fun v => v.flatMap (fun p => [p.x, p.y]))⟩)]) = none := by
    cases imagePoints <;> simp [Document.lookup]
  have hrest : ∀ (d8 : Document α), Document.lookup "nframes" d8 = none →
      Document.lookup "nframes"
        ([Entry.field "calibration_time" (Value.str calibrationTime)] ++
          (if (!rvecs.isEmpty || !reprojErrs.isEmpty) = true then
            [Entry.field "nframes" (Value.int (max rvecs.length reprojErrs.length : Nat))]
          else []) ++
          [Entry.field "image_width" (Value.int imageSize.width),
           Entry.field "image_height" (Value.int imageSize.height),
           Entry.field "board_width" (Value.int boardSize.width),
           Entry.field "board_height" (Value.int boardSize.height),
           Entry.field "square_size" (Value.real squareSize)] ++
          (if flags &&& CV_CALIB_FIX_ASPECT_RATIO ≠ 0 then
            [Entry.field "aspectRatio" (Value.real aspectRatio)] else []) ++
          (if flags ≠ 0 then [Entry.comment (flagsComment flags)] else []) ++
          [Entry.field "flags" (Value.int flags),
           Entry.field "camera_matrix" (Value.mat cameraMatrix),
           Entry.field "distortion_coefficients" (Value.mat distCoeffs),
           Entry.field "avg_reprojection_error" (Value.real totalAvgErr)] ++
          (if (!reprojErrs.isEmpty) = true then
            [Entry.field "per_view_reprojection_errors"
              (Value.mat ⟨reprojErrs.length, 1, 4, reprojErrs⟩)] else []) ++
          d8 ++
          (match imagePoints with
            | [] => ([] : Document α)
            | first :: _ =>
              [Entry.field "image_points"
                (Value.mat ⟨imagePoints.length, first.length, 8,
                  imagePoints.flatMap (fun v => v.flatMap (fun p => [p.x, p.y]))⟩)]))
        = if (!rvecs.isEmpty || !reprojErrs.isEmpty) = true then
            some (Value.int (max rvecs.length reprojErrs.length : Nat))
          else none := by
    intro d8 h8
    simp only [List.append_assoc]
    rw [lookup_append_of_none "nframes" _ _ (by simp [Document.lookup])]
    by_cases hc : (!rvecs.isEmpty || !reprojErrs.isEmpty) = true
    · rw [if_pos hc, if_pos hc]
      exact lookup_append_of_some "nframes" _ _ _ (by simp [Document.lookup])
    · rw [if_neg hc, if_neg hc, List.nil_append]
      rw [lookup_append_of_none "nframes" _ _ (by simp [Document.lookup])]
      rw [lookup_append_of_none "nframes" _ _ (hpiece _ _ (by simp [Document.lookup]))]
      rw [lookup_append_of_none "nframes" _ _ (hpiece _ _ (by simp [Document.lookup]))]
      rw [lookup_append_of_none "nframes" _ _ (by simp [Document.lookup])]
      rw [lookup_append_of_none "nframes" _ _ (hpiece _ _ (by simp [Document.lookup]))]
      rw [lookup_append_of_none "nframes" _ _ h8]
      exact h9
  simp only [saveCameraParams, bind, Except.bind, pure, Except.pure] at h
  split at h
  · split at h
    · exact Except.noConfusion h
    · injection h with h
      rw [← h]
      exact hrest _ (by simp [Document.lookup])
  · injection h with h
    rw [← h]
    exact hrest [] rfl

/-- Counterexample for C9: one view of a 1 by 1 board, calibration succeeds,
the extrinsics are not asked for.  A document is persisted and it has no
`nframes` field, with and without the points. -/
theorem nframes_absent_example :
    nframesReport (runAndSave exampleExternal "time" [[⟨0, 0⟩]] ⟨640, 480⟩ ⟨1, 1⟩ 1 1 0
      false true) = .ok (true, some none) ∧
    nframesReport (runAndSave exampleExternal "time" [[⟨0, 0⟩]] ⟨640, 480⟩ ⟨1, 1⟩ 1 1 0
      false false) = .ok (true, some none) := by
  constructor <;> rfl

/-- C9 (amended): a run of `runAndSave` over `N ≥ 1` views that succeeds, with
a solver that returns one rotation per view, persists a document that has the
field `nframes` with value `N` when `writeExtrinsics` is set, and has no
`nframes` field when `writeExtrinsics` is not set, whatever `writePoints` is. -/
theorem nframes_field {α : Type} [Field α] (ext : External α) (calibrationTime : String)
    (imagePoints : List (View α)) (imageSize boardSize : Size)
    (squareSize aspectRatio : α) (flags : Nat) (writeExtrinsics writePoints : Bool)
    (doc : Document α)
    (hN : 1 ≤ imagePoints.length)
    (hsolver : ∀ o c d, (ext.calibrateCamera o imagePoints imageSize c d
      (solverFlags flags)).rvecs.length = imagePoints.length)
    (hrun : runAndSave ext calibrationTime imagePoints imageSize boardSize squareSize
      aspectRatio flags writeExtrinsics writePoints = .ok (true, some doc)) :
    (writeExtrinsics = true →
      Document.lookup "nframes" doc = some (Value.int (imagePoints.length : Nat))) ∧
    (writeExtrinsics = false → Document.lookup "nframes" doc = none) := by
  simp only [runAndSave, bind, Except.bind, pure, Except.pure] at hrun
  split at hrun
  · exact Except.noConfusion hrun
  · rename_i r hr
    obtain ⟨hlen, o, c, d, hrv⟩ := runCalibration_lengths ext imagePoints imageSize boardSize
      squareSize aspectRatio flags [] r hr
    have hrlen : r.rvecs.length = imagePoints.length := by rw [hrv]; exact hsolver o c d
    split at hrun
    · split at hrun
      · exact Except.noConfusion hrun
      · rename_i doc2 hsave
        injection hrun with hrun
        injection hrun with _ hdoc
        injection hdoc with hdoc
        subst hdoc
        have hnf := saveCameraParams_nframes _ _ _ _ _ _ _ _ _ _ _ _ _ _ hsave
        constructor
        · intro hw
          rw [hnf]
          have hne : r.rvecs ≠ [] := by
            intro h0; rw [h0] at hrlen; simp at hrlen; omega
          simp [hw, hne, hrlen, hlen]
        · intro hw
          rw [hnf]
          simp [hw]
    · injection hrun with hrun
      injection hrun with hb _
      exact Bool.noConfusion hb

/-- Witness for C9 (amended): one view of a 1 by 1 board, with and without
the extrinsics. -/
theorem nframes_field_witness :
    (1 ≤ [[(⟨0, 0⟩ : Point2f ℚ)]].length) ∧
    nframesReport (runAndSave exampleExternal "time" [[⟨0, 0⟩]] ⟨640, 480⟩ ⟨1, 1⟩ 1 1 0
      true false) = .ok (true, some (some (Value.int 1))) ∧
    nframesReport (runAndSave exampleExternal "time" [[⟨0, 0⟩]] ⟨640, 480⟩ ⟨1, 1⟩ 1 1 0
      false false) = .ok (true, some none) := by
  obtain ⟨docT, hT⟩ : ∃ doc, runAndSave exampleExternal "time" [[⟨0, 0⟩]] ⟨640, 480⟩ ⟨1, 1⟩
      1 1 0 true false = .ok (true, some doc) := ⟨_, rfl⟩
  obtain ⟨docF, hF⟩ : ∃ doc, runAndSave exampleExternal "time" [[⟨0, 0⟩]] ⟨640, 480⟩ ⟨1, 1⟩
      1 1 0 false false = .ok (true, some doc) := ⟨_, rfl⟩
  have h1 := (nframes_field exampleExternal "time" [[⟨0, 0⟩]] ⟨640, 480⟩ ⟨1, 1⟩ 1 1 0
    true false docT (by decide) (fun _ _ _ => rfl) hT).1 rfl
  have h2 := (nframes_field exampleExternal "time" [[⟨0, 0⟩]] ⟨640, 480⟩ ⟨1, 1⟩ 1 1 0
    false false docF (by decide) (fun _ _ _ => rfl) hF).2 rfl
  refine ⟨by decide, ?_, ?_⟩
  · rw [hT]; simp only [nframesReport, Except.map, Option.map, h1]; rfl
  · rw [hF]; simp only [nframesReport, Except.map, Option.map, h2]

/-! ## The manual trigger -/

/-- Counterexample for C12: an image list with the manual trigger.  The loop is
capturing, the key held is not `c` and no key is pressed in the pass, yet the
detected view is appended. -/
theorem manual_trigger_ignored_on_list_example :
    (step (⟨false, [some (frameFound 1)], 4, 1000, 1000000, true⟩ : LoopConfig Int)
        (fun _ _ => true) ⟨CalibState.CAPTURING, [], ⟨0, 0⟩, 0, 0, false, 0⟩
        (cameraPass none 0 (-1))).state.imagePoints = [[⟨1, 1⟩]] ∧
    trigger (⟨false, [some (frameFound 1)], 4, 1000, 1000000, true⟩ : LoopConfig Int)
        ⟨CalibState.CAPTURING, [], ⟨0, 0⟩, 0, 0, false, 0⟩ (cameraPass none 0 (-1)) = false := by
  decide

/-- C12 (amended): with the manual trigger, in a pass that starts capturing and
gets a frame.  On a capture device (camera or video) the view list is left as
it is when the key held from the preceding `waitKey` is not `c`, and a detected
view is appended when that key is `c`, in both cases provided the pass does not
read `g`, which empties the list.  On an image list a detected view is appended
whatever the key held. -/
theorem manual_trigger {α : Type} (cfg : LoopConfig α)
    (runner : List (View α) → Size → Bool) (s : LoopState α) (env : StepEnv α)
    (view : Frame α)
    (hmanual : cfg.manualTrigger = true)
    (hmode : s.mode = CalibState.CAPTURING)
    (hview : acquire cfg s env = some view) :
    (cfg.captureOpened = true → env.waitKey % 256 ≠ KEY_g →
      (s.key ≠ KEY_c → (step cfg runner s env).state.imagePoints = s.imagePoints) ∧
      (s.key = KEY_c → view.found = true →
        (step cfg runner s env).state.imagePoints = s.imagePoints ++ [view.pointbuf])) ∧
    (cfg.captureOpened = false → view.found = true →
      (step cfg runner s env).state.imagePoints = s.imagePoints ++ [view.pointbuf]) := by
  have htr : trigger cfg s env = decide (s.key = KEY_c) := by
    simp only [trigger, hmanual, if_true]
  constructor
  · intro hopen hg
    have hs := step_imagePoints cfg runner s env view hview (Or.inr hg)
    constructor
    · intro hc
      rw [hs.1, captureView_imagePoints, htr, decide_eq_false hc]
      simp [hopen]
    · intro hc hf
      rw [hs.1, captureView_imagePoints, htr, decide_eq_true hc]
      simp [hmode, hf]
  · intro hclosed hf
    have hs := step_imagePoints cfg runner s env view hview (Or.inl hclosed)
    rw [hs.1, captureView_imagePoints]
    simp [hmode, hf, hclosed]

/-- Witness for C12 (amended): a camera that holds one view, without and with
the key `c` held; an image list without the key. -/
theorem manual_trigger_witness :
    ((cameraConfig true).manualTrigger = true ∧ (255 : Int) ≠ KEY_c ∧ (-1 : Int) % 256 ≠ KEY_g) ∧
    (step (cameraConfig true) (fun _ _ => true)
        ⟨CalibState.CAPTURING, [[⟨1, 1⟩]], ⟨640, 480⟩, 0, 255, false, 3⟩
        (cameraPass (some (frameFound 2)) 0 (-1))).state.imagePoints = [[⟨1, 1⟩]] ∧
    (step (cameraConfig true) (fun _ _ => true)
        ⟨CalibState.CAPTURING, [[⟨1, 1⟩]], ⟨640, 480⟩, 0, 99, false, 3⟩
        (cameraPass (some (frameFound 2)) 0 (-1))).state.imagePoints
      = [[⟨1, 1⟩]] ++ [(frameFound 2).pointbuf] ∧
    (step (⟨false, [some (frameFound 1)], 4, 1000, 1000000, true⟩ : LoopConfig Int)
        (fun _ _ => true) ⟨CalibState.CAPTURING, [], ⟨0, 0⟩, 0, 0, false, 0⟩
        (cameraPass none 0 (-1))).state.imagePoints = [] ++ [(frameFound 1).pointbuf] :=
  ⟨⟨rfl, by decide, by decide⟩,
   ((manual_trigger (cameraConfig true) (fun _ _ => true)
      ⟨CalibState.CAPTURING, [[⟨1, 1⟩]], ⟨640, 480⟩, 0, 255, false, 3⟩
      (cameraPass (some (frameFound 2)) 0 (-1)) (frameFound 2) rfl rfl rfl).1 rfl
      (by decide)).1 (by decide),
   ((manual_trigger (cameraConfig true) (fun _ _ => true)
      ⟨CalibState.CAPTURING, [[⟨1, 1⟩]], ⟨640, 480⟩, 0, 99, false, 3⟩
      (cameraPass (some (frameFound 2)) 0 (-1)) (frameFound 2) rfl rfl rfl).1 rfl
      (by decide)).2 rfl rfl,
   (manual_trigger (⟨false, [some (frameFound 1)], 4, 1000, 1000000, true⟩ : LoopConfig Int)
      (fun _ _ => true) ⟨CalibState.CAPTURING, [], ⟨0, 0⟩, 0, 0, false, 0⟩
      (cameraPass none 0 (-1)) (frameFound 1) rfl rfl rfl).2 rfl rfl⟩

/-! ## Degenerate inputs of the reprojection scoring -/

theorem reprojBody_ok {α : Type} [Field α] (ext : External α)
    (objectPoints : List (List (Point3f α))) (imagePoints : List (View α))
    (rvecs tvecs : List (Mat α)) (cameraMatrix distCoeffs : Mat α)
    (hpts : ∀ obj ∈ objectPoints, obj ≠ [])
    (hnorm : ∀ (i : Nat) (obj : List (Point3f α)) (rvec tvec : Mat α) (img : View α),
      objectPoints[i]? = some obj → rvecs[i]? = some rvec →
      tvecs[i]? = some tvec → imagePoints[i]? = some img →
      img.length = (ext.projectPoints obj rvec tvec cameraMatrix distCoeffs).length)
    (i : Nat) (ho : i < objectPoints.length) (hr : i < rvecs.length)
    (ht : i < tvecs.length) (hi : i < imagePoints.length) (acc : ReprojAcc α) :
    ∃ acc1, reprojBody ext objectPoints imagePoints rvecs tvecs cameraMatrix distCoeffs acc i
        = .ok acc1 := by
  have h1 : objectPoints[i]? = some (objectPoints.get ⟨i, ho⟩) := List.getElem?_eq_getElem ho
  have h2 : rvecs[i]? = some (rvecs.get ⟨i, hr⟩) := List.getElem?_eq_getElem hr
  have h3 : tvecs[i]? = some (tvecs.get ⟨i, ht⟩) := List.getElem?_eq_getElem ht
  have h4 : imagePoints[i]? = some (imagePoints.get ⟨i, hi⟩) := List.getElem?_eq_getElem hi
  have hlen := hnorm i _ _ _ _ h1 h2 h3 h4
  have hne : (objectPoints.get ⟨i, ho⟩).isEmpty = false := by
    have := hpts _ (List.get_mem objectPoints i ho)
    cases hv : objectPoints.get ⟨i, ho⟩ with
    | nil => exact absurd hv this
    | cons _ _ => rfl
  cases hb : reprojBody ext objectPoints imagePoints rvecs tvecs cameraMatrix distCoeffs
      acc i with
  | error f =>
    simp only [reprojBody, vecAt, h1, h2, h3, h4, projectPoints, hne, Bool.false_eq_true,
      if_false, normL2, hlen, if_true, bind, Except.bind, pure, Except.pure] at hb
    exact Except.noConfusion hb
  | ok acc1 => exact ⟨acc1, rfl⟩

theorem reprojBody_missing_pose {α : Type} [Field α] (ext : External α)
    (objectPoints : List (List (Point3f α))) (imagePoints : List (View α))
    (rvecs tvecs : List (Mat α)) (cameraMatrix distCoeffs : Mat α)
    (i : Nat) (ho : i < objectPoints.length) (hr : rvecs.length ≤ i) (acc : ReprojAcc α) :
    reprojBody ext objectPoints imagePoints rvecs tvecs cameraMatrix distCoeffs acc i
      = .error Fault.outOfRange := by
  have h1 : objectPoints[i]? = some (objectPoints.get ⟨i, ho⟩) := List.getElem?_eq_getElem ho
  have h2 : rvecs[i]? = none := List.getElem?_eq_none hr
  simp only [reprojBody, vecAt, h1, h2, bind, Except.bind]

theorem reprojFold_prefix {α : Type} [Field α] (ext : External α)
    (objectPoints : List (List (Point3f α))) (imagePoints : List (View α))
    (rvecs tvecs : List (Mat α)) (cameraMatrix distCoeffs : Mat α)
    (hpts : ∀ obj ∈ objectPoints, obj ≠ [])
    (hnorm : ∀ (i : Nat) (obj : List (Point3f α)) (rvec tvec : Mat α) (img : View α),
      objectPoints[i]? = some obj → rvecs[i]? = some rvec →
      tvecs[i]? = some tvec → imagePoints[i]? = some img →
      img.length = (ext.projectPoints obj rvec tvec cameraMatrix distCoeffs).length)
    (acc : ReprojAcc α) (k : Nat) (ho : k ≤ objectPoints.length) (hr : k ≤ rvecs.length)
    (ht : k ≤ tvecs.length) (hi : k ≤ imagePoints.length) :
    ∃ acc1, (List.range k).foldlM
        (reprojBody ext objectPoints imagePoints rvecs tvecs cameraMatrix distCoeffs) acc
        = .ok acc1 := by
  induction k with
  | zero => exact ⟨acc, rfl⟩
  | succ k ih =>
    obtain ⟨acc1, h1⟩ := ih (by omega) (by omega) (by omega) (by omega)
    obtain ⟨acc2, h2⟩ := reprojBody_ok ext objectPoints imagePoints rvecs tvecs
      cameraMatrix distCoeffs hpts hnorm k (by omega) (by omega) (by omega) (by omega) acc1
    refine ⟨acc2, ?_⟩
    rw [List.range_succ, List.foldlM_append, h1]
    simp only [bind, Except.bind, List.foldlM_cons, List.foldlM_nil, h2, pure, Except.pure]

/-- Counterexample for C11: with no view at all the function returns a value,
the square root of `0 / 0`, and no per-view error; with one view of one point
and no rotation it reads `rvecs[0]` of an empty vector (the fault `outOfRange`
stands for that read, which is undefined in the source). -/
theorem no_fail_fast_example :
    computeReprojectionErrors exampleExternal [] [] [] [] Mat.eye3 Mat.zeros8 []
      = .ok (exampleExternal.sqrt (0 / ((0 : Nat) : ℚ)), []) ∧
    computeReprojectionErrors exampleExternal [[⟨0, 0, 0⟩]] [[⟨0, 0⟩]] [] [examplePose]
      Mat.eye3 Mat.zeros8 [] = .error Fault.outOfRange := by
  constructor <;> rfl

/-- C11 (amended): `computeReprojectionErrors` has no test of its own.  With an
empty list of views it returns the square root of `totalErr / totalPoints` with
`totalErr = 0` and `totalPoints = 0`, and no per-view error (the quotient is
the one of the field `α`; in floating point it is NaN).  With a list whose
first view has no point, and a rotation and a translation for it, the call of
`projectPoints` throws, so that no quotient is computed.  When the rotations
are fewer than the views, while every view has points, an observed point list
and a translation, and the observed and the projected points of a view are
equally many, it reads `rvecs[i]` behind the end of the list: the fault
`outOfRange`, which stands for a read that is undefined in the source.  The
rotations and translations that are present are 3 by 1 matrices, as
`calibrateCamera` returns them. -/
theorem computeReprojectionErrors_degenerate {α : Type} [Field α] (ext : External α)
    (objectPoints rest : List (List (Point3f α))) (imagePoints : List (View α))
    (rvecs tvecs : List (Mat α)) (cameraMatrix distCoeffs : Mat α) (previous : List α)
    (hposes : ∀ m ∈ rvecs ++ tvecs, m.rows = 3 ∧ m.cols = 1)
    (hpts : ∀ obj ∈ objectPoints, obj ≠ [])
    (hi : objectPoints.length ≤ imagePoints.length)
    (ht : objectPoints.length ≤ tvecs.length)
    (hnorm : ∀ (i : Nat) (obj : List (Point3f α)) (rvec tvec : Mat α) (img : View α),
      objectPoints[i]? = some obj → rvecs[i]? = some rvec →
      tvecs[i]? = some tvec → imagePoints[i]? = some img →
      img.length = (ext.projectPoints obj rvec tvec cameraMatrix distCoeffs).length) :
    computeReprojectionErrors ext [] imagePoints rvecs tvecs cameraMatrix distCoeffs previous
      = .ok (ext.sqrt (0 / ((0 : Nat) : α)), []) ∧
    (rvecs ≠ [] → tvecs ≠ [] →
      computeReprojectionErrors ext ([] :: rest) imagePoints rvecs tvecs cameraMatrix
        distCoeffs previous = .error Fault.assertion) ∧
    (rvecs.length < objectPoints.length →
      computeReprojectionErrors ext objectPoints imagePoints rvecs tvecs
        cameraMatrix distCoeffs previous = .error Fault.outOfRange) := by
  refine ⟨?_, ?_, ?_⟩
  · simp [computeReprojectionErrors, resizeWith, bind, Except.bind, pure, Except.pure]
  · intro hr0 ht0
    obtain ⟨r, rs, hrv⟩ := List.exists_cons_of_ne_nil hr0
    obtain ⟨t, ts, htv⟩ := List.exists_cons_of_ne_nil ht0
    subst hrv
    subst htv
    simp only [computeReprojectionErrors, List.length_cons, List.range_succ_eq_map,
      List.foldlM_cons, reprojBody, vecAt, List.getElem?_cons_zero, projectPoints,
      List.isEmpty_nil, if_true, bind, Except.bind]
  · intro hr
    obtain ⟨m, hm⟩ : ∃ m, objectPoints.length = rvecs.length + (m + 1) :=
      ⟨objectPoints.length - rvecs.length - 1, by omega⟩
    have hrange : List.range objectPoints.length
        = List.range rvecs.length ++ (rvecs.length ::
            (List.range m).map (fun j => rvecs.length + (j + 1))) := by
      rw [hm, List.range_add, List.range_succ_eq_map]
      simp [Function.comp_def]
    obtain ⟨acc1, h1⟩ := reprojFold_prefix ext objectPoints imagePoints rvecs tvecs
      cameraMatrix distCoeffs hpts hnorm ⟨resizeWith previous objectPoints.length 0, 0, 0⟩
      rvecs.length (by omega) (le_refl _) (by omega) (by omega)
    have hfail := reprojBody_missing_pose ext objectPoints imagePoints rvecs tvecs
      cameraMatrix distCoeffs rvecs.length hr (le_refl _) acc1
    simp only [computeReprojectionErrors, hrange, List.foldlM_append, h1, bind, Except.bind,
      List.foldlM_cons, hfail]

/-- Witness for C11 (amended): no view; one view without points, with its
pose; one view of one point without a rotation. -/
theorem computeReprojectionErrors_degenerate_witness :
    ([examplePose] ≠ [] ∧
      ([] : List (Mat ℚ)).length < [[(⟨0, 0, 0⟩ : Point3f ℚ)]].length) ∧
    computeReprojectionErrors exampleExternal [] [[⟨0, 0⟩]] [examplePose] [examplePose]
        Mat.eye3 Mat.zeros8 []
      = .ok (exampleExternal.sqrt (0 / ((0 : Nat) : ℚ)), []) ∧
    computeReprojectionErrors exampleExternal ([] :: [[⟨0, 0, 0⟩]]) [[⟨0, 0⟩]] [examplePose]
        [examplePose] Mat.eye3 Mat.zeros8 [] = .error Fault.assertion ∧
    computeReprojectionErrors exampleExternal [[⟨0, 0, 0⟩]] [[⟨0, 0⟩]] [] [examplePose]
        Mat.eye3 Mat.zeros8 [] = .error Fault.outOfRange := by
  have hp : ∀ obj ∈ [[(⟨0, 0, 0⟩ : Point3f ℚ)]], obj ≠ [] := by
    intro obj ho
    rw [List.mem_singleton.mp ho]
    exact List.cons_ne_nil _ _
  have hn : ∀ (rv : List (Mat ℚ)) (i : Nat) (obj : List (Point3f ℚ)) (rvec tvec : Mat ℚ)
      (img : View ℚ), [[(⟨0, 0, 0⟩ : Point3f ℚ)]][i]? = some obj → rv[i]? = some rvec →
      [examplePose][i]? = some tvec → [[(⟨0, 0⟩ : Point2f ℚ)]][i]? = some img →
      img.length = (exampleExternal.projectPoints obj rvec tvec Mat.eye3 Mat.zeros8).length := by
    intro rv i obj rvec tvec img ho _ _ hi
    cases i with
    | zero =>
      simp only [List.getElem?_cons_zero, Option.some.injEq] at ho hi
      subst ho
      subst hi
      rfl
    | succ j => simp at ho
  have h1 := computeReprojectionErrors_degenerate exampleExternal [[⟨0, 0, 0⟩]]
    [[⟨0, 0, 0⟩]] [[⟨0, 0⟩]] [examplePose] [examplePose] Mat.eye3 Mat.zeros8 []
    (by decide) hp (le_refl _) (le_refl _) (hn [examplePose])
  have h2 := computeReprojectionErrors_degenerate exampleExternal [[⟨0, 0, 0⟩]]
    [] [[⟨0, 0⟩]] [] [examplePose] Mat.eye3 Mat.zeros8 []
    (by decide) hp (le_refl _) (le_refl _) (hn [])
  exact ⟨⟨List.cons_ne_nil _ _, by decide⟩, h1.1,
    h1.2.1 (List.cons_ne_nil _ _) (List.cons_ne_nil _ _), h2.2.2 (by decide)⟩

/-! ## The command line -/

theorem scanStep_switch {α : Type} [LinearOrderedField α] (libc : Libc α) (a : Args α)
    (s : String) (next : Option String)
    (hs : s ∈ ["-op", "-oe", "-zt", "-p", "-v", "-V", "-su", "-m", "--manual"]) :
    ∃ a1, scanStep libc a s next = .plain a1 ∧ a1.boardSize = a.boardSize := by
  simp only [List.mem_cons, List.mem_singleton, List.not_mem_nil, or_false] at hs
  rcases hs with h | h | h | h | h | h | h | h | h <;> subst h <;> exact ⟨_, rfl, rfl⟩

theorem scanArgs_switches {α : Type} [LinearOrderedField α] (libc : Libc α)
    (switches : List String)
    (hs : ∀ s ∈ switches, s ∈ ["-op", "-oe", "-zt", "-p", "-v", "-V", "-su", "-m", "--manual"])
    (a : Args α) :
    ∃ a1, scanArgs libc a switches = .done a1 ∧ a1.boardSize = a.boardSize := by
  induction switches generalizing a with
  | nil => exact ⟨a, rfl, rfl⟩
  | cons s rest ih =>
    cases rest with
    | nil =>
      obtain ⟨a1, h1, hb⟩ := scanStep_switch libc a s none (hs s (List.mem_cons_self _ _))
      exact ⟨a1, by simp only [scanArgs, h1], hb⟩
    | cons v rest2 =>
      obtain ⟨a1, h1, hb⟩ := scanStep_switch libc a s (some v) (hs s (List.mem_cons_self _ _))
      obtain ⟨a2, h2, hb2⟩ := ih (fun t ht => hs t (List.mem_cons_of_mem _ ht)) a1
      exact ⟨a2, by simp only [scanArgs, h1, h2], by rw [hb2, hb]⟩

/-- Counterexample for C13: started with no argument, `main` returns 0; started
with the single argument `-m`, and so with neither `-w` nor `-h`, it goes on,
opens the camera and enters the loop with the board size `0 x 0`. -/
theorem missing_dimensions_example :
    mainStart exampleLibc exampleSource ["calibration"] = .returned 0 ∧
    mainStart exampleLibc exampleSource ["calibration", "-m"]
      = .sourceTried (.ok (⟨true, [], 10, 1000, 1000000, true⟩,
          ⟨CalibState.DETECTION, [], ⟨0, 0⟩, 0, 0, false, 0⟩)) ∧
    scanArgs exampleLibc Args.initial ["-m"]
      = .done { (Args.initial : Args ℚ) with manualTrigger := true } := by
  refine ⟨rfl, rfl, rfl⟩

/-- C13 (amended): a command line of fewer than two words makes `main` return 0
before any source is touched.  A command line whose arguments are all among
the switches `-op -oe -zt -p -v -V -su -m --manual`, and which so gives neither
`-w` nor `-h`, is scanned to the end with the board size left at `0 x 0`, and
`main` goes on to read the image list or open the capture.  A `-w` or `-h` in
first place whose value does not scan, or scans to a number that is not
positive, makes `main` return `-1` before any source is touched. -/
theorem main_without_dimensions {α : Type} [LinearOrderedField α] (libc : Libc α)
    (env : SourceEnv α) (argv : List String) (program : String) (switches : List String)
    (value : String) (rest : List String)
    (hshort : argv.length < 2)
    (hsw : ∀ s ∈ switches,
      s ∈ ["-op", "-oe", "-zt", "-p", "-v", "-V", "-su", "-m", "--manual"])
    (hne : switches ≠ [])
    (hbad : libc.scanUnsigned value = none ∨
      ∃ w, libc.scanUnsigned value = some w ∧ w ≤ 0) :
    mainStart libc env argv = .returned 0 ∧
    (∃ a, scanArgs libc Args.initial switches = .done a ∧ a.boardSize = ⟨0, 0⟩ ∧
      mainStart libc env (program :: switches) = .sourceTried (startup (a.toStartup env))) ∧
    mainStart libc env (program :: "-w" :: value :: rest) = .returned (-1) ∧
    mainStart libc env (program :: "-h" :: value :: rest) = .returned (-1) := by
  refine ⟨?_, ?_, ?_, ?_⟩
  · simp only [mainStart, hshort, if_true]
  · obtain ⟨a, ha, hb⟩ := scanArgs_switches libc switches hsw Args.initial
    refine ⟨a, ha, hb, ?_⟩
    have hlen : ¬ (program :: switches).length < 2 := by
      cases switches with
      | nil => exact absurd rfl hne
      | cons _ _ => simp
    simp only [mainStart, hlen, if_false, List.tail_cons, ha]
  · have hlen : ¬ (program :: "-w" :: value :: rest).length < 2 := by simp
    have hstep : scanStep libc Args.initial "-w" (some value) = .returned (-1) := by
      rcases hbad with h | ⟨w, h, hw⟩
      · simp only [scanStep, if_true, h]
      · simp only [scanStep, if_true, h, hw]
    cases rest with
    | nil => simp only [mainStart, hlen, if_false, List.tail_cons, scanArgs, hstep]
    | cons _ _ => simp only [mainStart, hlen, if_false, List.tail_cons, scanArgs, hstep]
  · have hlen : ¬ (program :: "-h" :: value :: rest).length < 2 := by simp
    have hstep : scanStep libc Args.initial "-h" (some value) = .returned (-1) := by
      rcases hbad with h | ⟨w, h, hw⟩
      · simp [scanStep, h]
      · simp [scanStep, h, hw]
    cases rest with
    | nil => simp only [mainStart, hlen, if_false, List.tail_cons, scanArgs, hstep]
    | cons _ _ => simp only [mainStart, hlen, if_false, List.tail_cons, scanArgs, hstep]

/-- Witness for C13 (amended): no argument; the switches `-m -op`; `-w 0` and
`-h 0`. -/
theorem main_without_dimensions_witness :
    (["calibration"].length < 2 ∧ ["-m", "-op"] ≠ [] ∧
      exampleLibc.scanUnsigned "0" = some 0) ∧
    mainStart exampleLibc exampleSource ["calibration"] = .returned 0 ∧
    mainStart exampleLibc exampleSource ["calibration", "-m", "-op"]
      = .sourceTried (.ok (⟨true, [], 10, 1000, 1000000, true⟩,
          ⟨CalibState.DETECTION, [], ⟨0, 0⟩, 0, 0, false, 0⟩)) ∧
    mainStart exampleLibc exampleSource ["calibration", "-w", "0", "-h", "5"]
      = .returned (-1) ∧
    mainStart exampleLibc exampleSource ["calibration", "-h", "0", "-h", "5"]
      = .returned (-1) := by
  have h := main_without_dimensions exampleLibc exampleSource ["calibration"] "calibration"
    ["-m", "-op"] "0" ["-h", "5"] (by decide) (by decide) (by decide)
    (Or.inr ⟨0, rfl, le_refl _⟩)
  obtain ⟨a, ha, _, hm⟩ := h.2.1
  have ha0 : scanArgs exampleLibc Args.initial ["-m", "-op"]
      = .done { (Args.initial : Args ℚ) with manualTrigger := true, writePoints := true } :=
    rfl
  rw [ha0] at ha
  injection ha with ha
  subst ha
  exact ⟨⟨by decide, by decide, rfl⟩, h.1, hm, h.2.2.1, h.2.2.2⟩

/-! ## The start signal -/

theorem step_list_mode {α : Type} (cfg : LoopConfig α)
    (runner : List (View α) → Size → Bool) (s : LoopState α) (env : StepEnv α)
    (hclosed : cfg.captureOpened = false) (hmode : s.mode = CalibState.CAPTURING)
    (hrun : (step cfg runner s env).halted = false) :
    (step cfg runner s env).state.mode = CalibState.CAPTURING := by
  cases hacq : acquire cfg s env with
  | none =>
    simp only [step, hacq] at hrun
    exact Bool.noConfusion hrun
  | some view =>
    by_cases hesc : env.waitKey % 256 = KEY_ESC
    · have hk : (afterWaitKey cfg s env view).key % 256 = KEY_ESC := by
        rw [(afterWaitKey_fields cfg s env view).2.2.1, hesc]; decide
      simp only [step, hacq, hk, if_true] at hrun
      exact Bool.noConfusion hrun
    · rw [step_of_frame cfg runner s env view hacq hesc] at hrun ⊢
      have hb := beforeCheck_keep cfg s env view (Or.inl hclosed)
      by_cases hreach : cfg.nframes ≤ (beforeCheck cfg s env view).imagePoints.length
      · have hr := checkCalibrate_reached cfg runner _
          ⟨by rw [hb.1, hmode], hreach⟩
        rw [hr.2.1, hclosed] at hrun
        exact Bool.noConfusion hrun
      · rw [checkCalibrate_idle cfg runner _ (fun h => hreach h.2)]
        show (beforeCheck cfg s env view).mode = CalibState.CAPTURING
        rw [hb.1, hmode]

theorem runLoop_list_mode {α : Type} (cfg : LoopConfig α)
    (runner : List (View α) → Size → Bool) (s : LoopState α) (envs : List (StepEnv α))
    (hclosed : cfg.captureOpened = false) (hmode : s.mode = CalibState.CAPTURING)
    (hrun : (runLoop cfg runner s envs).halted = false) :
    (runLoop cfg runner s envs).state.mode = CalibState.CAPTURING := by
  induction envs generalizing s with
  | nil => exact hmode
  | cons e es ih =>
    rw [runLoop_cons] at hrun ⊢
    by_cases hh : (step cfg runner s e).halted = true
    · rw [if_pos hh] at hrun
      rw [hh] at hrun
      exact Bool.noConfusion hrun
    · rw [if_neg hh] at hrun ⊢
      have hh2 : (step cfg runner s e).halted = false := by
        cases hv : (step cfg runner s e).halted with
        | true => exact absurd hv hh
        | false => rfl
      exact ih (step cfg runner s e).state
        (step_list_mode cfg runner s e hclosed hmode hh2) hrun

theorem startup_facts {α : Type} (a : Startup α) (cfg : LoopConfig α) (s0 : LoopState α)
    (h : startup a = .ok (cfg, s0)) :
    (cfg.captureOpened = false → s0.mode = CalibState.CAPTURING) ∧
    (cfg.captureOpened = true → cfg.nframes = a.nframes) := by
  obtain ⟨hasInput, videofile, listed, fileOpens, cameraOpens, nframes, delay, clocks, manual,
    key⟩ := a
  cases hasInput <;> cases videofile <;> cases fileOpens <;> cases cameraOpens <;>
    rcases listed with _ | (_ | ⟨x, l⟩) <;>
    simp [startup] at h <;>
    (obtain ⟨hc, hs⟩ := h; subst hc; subst hs; simp)

theorem scanStep_nframes {α : Type} [LinearOrderedField α] (libc : Libc α) (a : Args α)
    (s : String) (next : Option String) (ha : 3 < a.nframes) :
    match scanStep libc a s next with
    | .plain a1 => 3 < a1.nframes
    | .valued a1 => 3 < a1.nframes
    | _ => True := by
  unfold scanStep
  by_cases h0 : s = "-w"
  · rw [if_pos h0]
    cases next with
    | none => exact True.intro
    | some v =>
      dsimp only
      cases libc.scanUnsigned v with
      | none => exact True.intro
      | some w =>
        dsimp only
        split_ifs <;> first | exact True.intro | exact ha
  rw [if_neg h0]
  by_cases h1 : s = "-h"
  · rw [if_pos h1]
    cases next with
    | none => exact True.intro
    | some v =>
      dsimp only
      cases libc.scanUnsigned v with
      | none => exact True.intro
      | some w =>
        dsimp only
        split_ifs <;> first | exact True.intro | exact ha
  rw [if_neg h1]
  by_cases h2 : s = "-s"
  · rw [if_pos h2]
    cases next with
    | none => exact True.intro
    | some v =>
      dsimp only
      cases libc.scanFloat v with
      | none => exact True.intro
      | some x =>
        dsimp only
        split_ifs <;> first | exact True.intro | exact ha
  rw [if_neg h2]
  by_cases h3 : s = "-n"
  · rw [if_pos h3]
    cases next with
    | none => exact True.intro
    | some v =>
      dsimp only
      cases libc.scanUnsigned v with
      | none => exact True.intro
      | some w =>
        dsimp only
        split_ifs with hw <;> first | exact True.intro | exact not_le.mp hw
  rw [if_neg h3]
  by_cases h4 : s = "-a"
  · rw [if_pos h4]
    cases next with
    | none => exact True.intro
    | some v =>
      dsimp only
      cases libc.scanFloat v with
      | none => exact True.intro
      | some x =>
        dsimp only
        split_ifs <;> first | exact True.intro | exact ha
  rw [if_neg h4]
  by_cases h5 : s = "-d"
  · rw [if_pos h5]
    cases next with
    | none => exact True.intro
    | some v =>
      dsimp only
      cases libc.scanUnsigned v with
      | none => exact True.intro
      | some w =>
        dsimp only
        split_ifs <;> first | exact True.intro | exact ha
  rw [if_neg h5]
  by_cases h6 : s = "-op"
  · rw [if_pos h6]
    exact ha
  rw [if_neg h6]
  by_cases h7 : s = "-oe"
  · rw [if_pos h7]
    exact ha
  rw [if_neg h7]
  by_cases h8 : s = "-zt"
  · rw [if_pos h8]
    exact ha
  rw [if_neg h8]
  by_cases h9 : s = "-p"
  · rw [if_pos h9]
    exact ha
  rw [if_neg h9]
  by_cases h10 : s = "-v"
  · rw [if_pos h10]
    exact ha
  rw [if_neg h10]
  by_cases h11 : s = "-V"
  · rw [if_pos h11]
    exact ha
  rw [if_neg h11]
  by_cases h12 : s = "-o"
  · rw [if_pos h12]
    exact ha
  rw [if_neg h12]
  by_cases h13 : s = "-su"
  · rw [if_pos h13]
    exact ha
  rw [if_neg h13]
  by_cases h14 : s = "--device"
  · rw [if_pos h14]
    cases next with
    | none => exact True.intro
    | some v => exact ha
  rw [if_neg h14]
  by_cases h15 : s = "--reduce"
  · rw [if_pos h15]
    cases next with
    | none => exact True.intro
    | some v => exact ha
  rw [if_neg h15]
  by_cases hd : s.data.head? ≠ some '-'
  · rw [if_pos hd]
    split_ifs <;> exact ha
  rw [if_neg hd]
  by_cases hm : s = "-m" ∨ s = "--manual"
  · rw [if_pos hm]
    exact ha
  rw [if_neg hm]
  exact True.intro

theorem scanArgs_nframes {α : Type} [LinearOrderedField α] (libc : Libc α) (n : Nat) :
    ∀ (l : List String) (a0 a : Args α), l.length ≤ n → 3 < a0.nframes →
      scanArgs libc a0 l = .done a → 3 < a.nframes := by
  induction n with
  | zero =>
    intro l a0 a hl ha h
    have : l = [] := List.length_eq_zero.mp (by omega)
    subst this
    simp only [scanArgs] at h
    injection h with h
    rw [← h]; exact ha
  | succ n ih =>
    intro l a0 a hl ha h
    match l, hl, h with
    | [], _, h =>
      simp only [scanArgs] at h
      injection h with h
      rw [← h]; exact ha
    | [s], _, h =>
      have hs := scanStep_nframes libc a0 s none ha
      simp only [scanArgs] at h
      cases hst : scanStep libc a0 s none with
      | plain a1 =>
        rw [hst] at h hs
        injection h with h
        rw [← h]; exact hs
      | valued a1 =>
        rw [hst] at h hs
        injection h with h
        rw [← h]; exact hs
      | returned c => rw [hst] at h; exact ScanResult.noConfusion h
      | crashed => rw [hst] at h; exact ScanResult.noConfusion h
    | s :: v :: rest, hl, h =>
      have hs := scanStep_nframes libc a0 s (some v) ha
      simp only [scanArgs] at h
      simp only [List.length_cons] at hl
      cases hst : scanStep libc a0 s (some v) with
      | plain a1 =>
        rw [hst] at h hs
        exact ih (v :: rest) a1 a (by simp only [List.length_cons]; omega) hs h
      | valued a1 =>
        rw [hst] at h hs
        exact ih rest a1 a (by omega) hs h
      | returned c => rw [hst] at h; exact ScanResult.noConfusion h
      | crashed => rw [hst] at h; exact ScanResult.noConfusion h

/-- C5: `main` has entered its loop, on an image list or on a capture device,
and has gone through any number of passes without leaving it.  If the state is
then `DETECTION`, with any view list, a pass that gets a frame and reads the
key `g` ends in `CAPTURING` with an empty view list. -/
theorem start_signal {α : Type} [LinearOrderedField α] (libc : Libc α)
    (source : SourceEnv α) (argv : List String) (cfg : LoopConfig α) (s0 : LoopState α)
    (runner : List (View α) → Size → Bool) (envs : List (StepEnv α)) (env : StepEnv α)
    (view : Frame α)
    (hmain : mainStart libc source argv = .sourceTried (.ok (cfg, s0)))
    (hrun : (runLoop cfg runner s0 envs).halted = false)
    (hmode : (runLoop cfg runner s0 envs).state.mode = CalibState.DETECTION)
    (hview : acquire cfg (runLoop cfg runner s0 envs).state env = some view)
    (hkey : env.waitKey % 256 = KEY_g) :
    (step cfg runner (runLoop cfg runner s0 envs).state env).state.mode
      = CalibState.CAPTURING ∧
    (step cfg runner (runLoop cfg runner s0 envs).state env).state.imagePoints = [] := by
  simp only [mainStart] at hmain
  split at hmain
  · exact MainStart.noConfusion hmain
  · cases hsc : scanArgs libc Args.initial argv.tail with
    | returned c => rw [hsc] at hmain; exact MainStart.noConfusion hmain
    | crashed => rw [hsc] at hmain; exact MainStart.noConfusion hmain
    | done a =>
      rw [hsc] at hmain
      injection hmain with hstart
      have hf := startup_facts (a.toStartup source) cfg s0 hstart
      cases ho : cfg.captureOpened with
      | false =>
        have hcap := runLoop_list_mode cfg runner s0 envs ho (hf.1 ho) hrun
        rw [hcap] at hmode
        exact CalibState.noConfusion hmode
      | true =>
        have hinit : 3 < (@Args.initial α _).nframes := by
          show (3 : Int) < 10
          decide
        have hn : 3 < a.nframes :=
          scanArgs_nframes libc argv.tail.length argv.tail Args.initial a (le_refl _)
            hinit hsc
        have hpos : 0 < cfg.nframes := by
          rw [hf.2 ho]
          show 0 < a.nframes.toNat
          omega
        exact start_on_device cfg runner _ env view hview hkey ho hpos

/-- Witness for C5: `calibration -m -n 4` on a camera; a session of four views
whose calibration fails leaves the loop in `DETECTION` with the four views, and
the key `g` then starts a new session with an empty list. -/
theorem start_signal_witness :
    (mainStart exampleLibc exampleSource ["calibration", "-m", "-n", "4"]
        = .sourceTried (.ok (⟨true, [], 4, 1000, 1000000, true⟩,
            ⟨CalibState.DETECTION, [], ⟨0, 0⟩, 0, 0, false, 0⟩)) ∧
      (runLoop ⟨true, [], 4, 1000, 1000000, true⟩ (fun _ _ => false)
        ⟨CalibState.DETECTION, [], ⟨0, 0⟩, 0, 0, false, 0⟩ startedSessionPasses).halted
        = false ∧
      (runLoop ⟨true, [], 4, 1000, 1000000, true⟩ (fun _ _ => false)
        ⟨CalibState.DETECTION, [], ⟨0, 0⟩, 0, 0, false, 0⟩ startedSessionPasses).state.mode
        = CalibState.DETECTION ∧
      (runLoop ⟨true, [], 4, 1000, 1000000, true⟩ (fun _ _ => false)
        ⟨CalibState.DETECTION, [], ⟨0, 0⟩, 0, 0, false, 0⟩
        startedSessionPasses).state.imagePoints.length = 4) ∧
    (step ⟨true, [], 4, 1000, 1000000, true⟩ (fun _ _ => false)
      (runLoop ⟨true, [], 4, 1000, 1000000, true⟩ (fun _ _ => false)
        ⟨CalibState.DETECTION, [], ⟨0, 0⟩, 0, 0, false, 0⟩ startedSessionPasses).state
      ⟨some (deviceFrame 5), 0, 0, 103⟩).state.mode = CalibState.CAPTURING ∧
    (step ⟨true, [], 4, 1000, 1000000, true⟩ (fun _ _ => false)
      (runLoop ⟨true, [], 4, 1000, 1000000, true⟩ (fun _ _ => false)
        ⟨CalibState.DETECTION, [], ⟨0, 0⟩, 0, 0, false, 0⟩ startedSessionPasses).state
      ⟨some (deviceFrame 5), 0, 0, 103⟩).state.imagePoints = [] :=
  ⟨⟨rfl, rfl, rfl, rfl⟩,
   start_signal exampleLibc exampleSource ["calibration", "-m", "-n", "4"]
     ⟨true, [], 4, 1000, 1000000, true⟩ ⟨CalibState.DETECTION, [], ⟨0, 0⟩, 0, 0, false, 0⟩
     (fun _ _ => false) startedSessionPasses ⟨some (deviceFrame 5), 0, 0, 103⟩ (deviceFrame 5)
     rfl rfl rfl rfl (by decide)⟩

end Calib
